import Mathlib

/-!
Verification development for the book-keeping statement parser
(`src/book_keeping/cli.py`).  The Python source is shallowly embedded:
amounts become exact rationals (the code's decimal tokens always carry two
fractional digits), text lines become `String`s, and the regex-driven line
classifiers are transcribed as executable character-level matchers with the
same leftmost / preference-ordered backtracking semantics as Python's `re`.
-/

set_option maxRecDepth 40000

namespace BookKeeping

/-! ## Characters and Python string helpers -/

/-- ASCII whitespace recognized by Python's `\s` and `str.strip` on the
statement texts handled here. -/
def isSpaceChar (c : Char) : Bool :=
  c = ' ' ∨ c = '\t' ∨ c = '\n' ∨ c = '\r' ∨ c = '\x0b' ∨ c = '\x0c'

def isDigitChar (c : Char) : Bool :=
  48 ≤ c.toNat ∧ c.toNat ≤ 57

/-- Python `\w` on ASCII input: letters, digits, underscore. -/
def isWordChar (c : Char) : Bool :=
  isDigitChar c ∨ (65 ≤ c.toNat ∧ c.toNat ≤ 90) ∨ (97 ≤ c.toNat ∧ c.toNat ≤ 122) ∨ c = '_'

def digitVal (c : Char) : Nat := c.toNat - 48

/-- ASCII lower casing, for the `re.I` (case-insensitive) patterns. -/
def lowerChar (c : Char) : Char :=
  if 65 ≤ c.toNat ∧ c.toNat ≤ 90 then Char.ofNat (c.toNat + 32) else c

def stripLeft (cs : List Char) : List Char := cs.dropWhile isSpaceChar

def stripRight (cs : List Char) : List Char :=
  (cs.reverse.dropWhile isSpaceChar).reverse

/-- Python `str.strip()`. -/
def pyStrip (s : String) : String :=
  String.mk (stripRight (stripLeft s.toList))

/-- Python `str.rstrip()`. -/
def pyRstrip (s : String) : String :=
  String.mk (stripRight s.toList)

/-! ## Nondeterministic matching machinery

Python's `re` engine explores a pattern depth-first with a fixed preference
order (greedy quantifiers prefer longer matches, lazy ones shorter, optional
groups prefer presence, alternation is left to right).  We embed each regex
used by the source as a function producing the list of candidate "rests"
(suffixes remaining after consuming a match prefix) in exactly that
preference order; the regex engine's result is the head of the list. -/

/-- Consume one optional character from a class: prefer consuming. -/
def optCharCands (p : Char → Bool) (cs : List Char) : List (List Char) :=
  match cs with
  | c :: r => if p c then [r, cs] else [cs]
  | [] => [[]]

/-- Length of the leading whitespace run. -/
def wsRunLen (cs : List Char) : Nat := (cs.takeWhile isSpaceChar).length

/-- Source `\s*`: greedy, candidates from the longest run down to zero. -/
def wsStarCands (cs : List Char) : List (List Char) :=
  (List.range (wsRunLen cs + 1)).reverse.map (fun i => cs.drop i)

/-- Source `\s+`: greedy, candidates from the longest run down to one. -/
def wsPlusCands (cs : List Char) : List (List Char) :=
  (List.range (wsRunLen cs)).reverse.map (fun i => cs.drop (i + 1))

/-- Consume exactly `n` digits. -/
def takeDigits : Nat → List Char → Option (List Char)
  | 0, cs => some cs
  | n + 1, [] => (fun _ => none) n
  | n + 1, c :: cs => if isDigitChar c then takeDigits n cs else none

/-- Numeric value of exactly `n` leading digits. -/
def takeDigitsVal : Nat → Nat → List Char → Option (Nat × List Char)
  | 0, acc, cs => some (acc, cs)
  | n + 1, acc, [] => (fun _ _ => none) n acc
  | n + 1, acc, c :: cs =>
    if isDigitChar c then takeDigitsVal n (10 * acc + digitVal c) cs else none

/-! ## The amount token grammar

`_AMOUNT_RE = r"[\(\-]?\$?(?:\d{1,3}(?:,\d{3})*|\d)?(?:\.\d{2})[\)]?"` -/

/-- One `,\d{3}` group. -/
def commaGroupOnce (cs : List Char) : Option (List Char) :=
  match cs with
  | c :: a :: b :: d :: r =>
    if c = ',' ∧ isDigitChar a ∧ isDigitChar b ∧ isDigitChar d then some r else none
  | _ => none

/-- Source `(?:,\d{3})*`: greedy star, candidates from the most repetitions down to
zero.  Fueled recursion (each repetition consumes four characters). -/
def commaGroupsGo : Nat → List Char → List (List Char)
  | 0, cs => [cs]
  | n + 1, cs =>
    match commaGroupOnce cs with
    | some r => commaGroupsGo n r ++ [cs]
    | none => [cs]

def commaGroupsCands (cs : List Char) : List (List Char) :=
  commaGroupsGo cs.length cs

/-- Source `(?:\d{1,3}(?:,\d{3})*|\d)?`: the optional integer part, alternation in
source order, each branch with its own backtracking order. -/
def intPartCands (cs : List Char) : List (List Char) :=
  (([3, 2, 1].filterMap (fun n => takeDigits n cs)).flatMap commaGroupsCands)
    ++ (takeDigits 1 cs).toList ++ [cs]

/-- Source `\.\d{2}` (required). -/
def dotTwoDigits (cs : List Char) : Option (List Char) :=
  match cs with
  | c :: a :: b :: r => if c = '.' ∧ isDigitChar a ∧ isDigitChar b then some r else none
  | _ => none

/-- All candidate rests of an `_AMOUNT_RE` match anchored at `cs`, in the
regex engine's preference order. -/
def amountCandsAt (cs : List Char) : List (List Char) :=
  (optCharCands (fun c => c = '(' ∨ c = '-') cs).flatMap fun r1 =>
    (optCharCands (fun c => c = '$') r1).flatMap fun r2 =>
      (intPartCands r2).flatMap fun r3 =>
        match dotTwoDigits r3 with
        | some r4 => optCharCands (fun c => c = ')') r4
        | none => []

/-- Source `re.search(_AMOUNT_RE, ·)`: leftmost match; returns
`(pre, matched, rest)`. -/
def amountSearchList : List Char → Option (List Char × List Char × List Char)
  | [] => none
  | c :: cs' =>
    match (amountCandsAt (c :: cs')).head? with
    | some r => some ([], (c :: cs').take ((c :: cs').length - r.length), r)
    | none =>
      match amountSearchList cs' with
      | some (p, m, r) => some (c :: p, m, r)
      | none => none

/-- First amount token in a string, as matched text. -/
def amountSearch (s : String) : Option String :=
  (amountSearchList s.toList).map (fun x => String.mk x.2.1)

/-- Source `re.search(rf"({amount_re})\s*$", ·)`: leftmost amount token followed by
only whitespace; returns the group text. -/
def amountTrailingList : List Char → Option (List Char)
  | [] => none
  | c :: cs' =>
    match (amountCandsAt (c :: cs')).find? (fun r => r.all isSpaceChar) with
    | some r => some ((c :: cs').take ((c :: cs').length - r.length))
    | none => amountTrailingList cs'

def amountTrailing (s : String) : Option String :=
  (amountTrailingList s.toList).map String.mk

/-- Source `strip_after_first_amount`: keep text up to and including the first
amount token, then `rstrip`. -/
def stripAfterFirstAmount (s : String) : String :=
  match amountSearchList s.toList with
  | none => s
  | some (p, m, _) => String.mk (stripRight (p ++ m))

/-! ## `_norm_amount` -/

/-- Python `float(...)` restricted to the digits-and-dot strings reachable
here, as an exact rational. -/
def pyFloatOfChars (cs : List Char) : Option ℚ :=
  let ip := cs.takeWhile isDigitChar
  let rest := cs.drop ip.length
  let natVal : List Char → ℚ := fun l => ((l.foldl (fun a c => 10 * a + digitVal c) 0 : Nat) : ℚ)
  match rest with
  | [] => if ip.isEmpty then none else some (natVal ip)
  | '.' :: fp =>
    if fp.all isDigitChar ∧ (¬ ip.isEmpty ∨ ¬ fp.isEmpty) then
      some (natVal ip + natVal fp / ((10 : ℚ) ^ fp.length))
    else none
  | _ => none

/-- Source `_norm_amount`: strip `$` and `,`, handle `(...)` and leading `-` as
negatives, drop trailing non-numeric ornament, convert. -/
def normAmount (s : String) : Option ℚ :=
  let cs0 := s.toList.filter (fun c => ¬ (c = '$' ∨ c = ','))
  let cs1 := stripRight (stripLeft cs0)
  let paren := cs1.head? = some '(' ∧ cs1.getLast? = some ')'
  let cs2 := if paren then (cs1.drop 1).dropLast else cs1
  let minus := cs2.head? = some '-'
  let cs3 := if minus then cs2.drop 1 else cs2
  let neg := paren ∨ minus
  let cs4 := (cs3.reverse.dropWhile (fun c => ¬ (isDigitChar c ∨ c = '.'))).reverse
  match pyFloatOfChars cs4 with
  | none => none
  | some v => some (if neg then -v else v)

/-! ## Date tokens

Checking parser: `(0[1-9]|1[0-2])/(0[1-9]|[12]\d|3[01])(?:/(20\d{2}))?`.
Credit card: `(?:^|\s)(mm)/(dd)(?:/(\d{2,4}))?(?:[*•†‡])?(?=\D|$)`. -/

structure DateTok where
  mm : Nat
  dd : Nat
  yy : Option Nat
deriving DecidableEq, Repr

/-- Source `0[1-9]|1[0-2]`. -/
def month2 : List Char → Option (Nat × List Char)
  | a :: b :: r =>
    if a = '0' ∧ 49 ≤ b.toNat ∧ b.toNat ≤ 57 then some (digitVal b, r)
    else if a = '1' ∧ 48 ≤ b.toNat ∧ b.toNat ≤ 50 then some (10 + digitVal b, r)
    else none
  | _ => none

/-- Source `0[1-9]|[12]\d|3[01]`. -/
def day2 : List Char → Option (Nat × List Char)
  | a :: b :: r =>
    if a = '0' ∧ 49 ≤ b.toNat ∧ b.toNat ≤ 57 then some (digitVal b, r)
    else if (a = '1' ∨ a = '2') ∧ isDigitChar b then some (10 * digitVal a + digitVal b, r)
    else if a = '3' ∧ (b = '0' ∨ b = '1') then some (30 + digitVal b, r)
    else none
  | _ => none

/-- Source `(?:/(20\d{2}))?`: optional four-digit year `20xx`, presence preferred. -/
def yearCands20 (cs : List Char) : List (Option Nat × List Char) :=
  match cs with
  | '/' :: '2' :: '0' :: a :: b :: r =>
    if isDigitChar a ∧ isDigitChar b then
      [(some (2000 + 10 * digitVal a + digitVal b), r), (none, cs)]
    else [(none, cs)]
  | _ => [(none, cs)]

/-- Candidates of the checking-parser date token anchored at `cs`. -/
def chaseDateCands (cs : List Char) : List (DateTok × List Char) :=
  match month2 cs with
  | none => []
  | some (m, r1) =>
    match r1 with
    | '/' :: r2 =>
      match day2 r2 with
      | none => []
      | some (d, r3) => (yearCands20 r3).map (fun x => (⟨m, d, x.1⟩, x.2))
    | _ => []

/-- Source `re.search(date_re, ·)` (used by the loose header branch). -/
def dateSearchList : List Char → Option DateTok
  | [] => none
  | c :: cs' =>
    match (chaseDateCands (c :: cs')).head? with
    | some x => some x.1
    | none => dateSearchList cs'

def dateSearch (s : String) : Option DateTok := dateSearchList s.toList

/-- Source `(?:/(?P<yy>\d{2,4}))?`: optional 2–4 digit year, greedy. -/
def ccYearCands (cs : List Char) : List (Option Nat × List Char) :=
  (match cs with
   | '/' :: r => ([4, 3, 2].filterMap (fun n => takeDigitsVal n 0 r)).map
       (fun x => (some x.1, x.2))
   | _ => []) ++ [(none, cs)]

/-- Candidates of the credit-card date token anchored at `cs` (after the
`(?:^|\s)` prelude): month/day, optional year, optional footnote glyph, and
the `(?=\D|$)` lookahead. -/
def ccDateCandsAt (cs : List Char) : List (DateTok × List Char) :=
  match month2 cs with
  | none => []
  | some (m, r1) =>
    match r1 with
    | '/' :: r2 =>
      match day2 r2 with
      | none => []
      | some (d, r3) =>
        (ccYearCands r3).flatMap fun y =>
          (optCharCands (fun c => c = '*' ∨ c = '•' ∨ c = '†' ∨ c = '‡') y.2).filterMap
            fun r5 =>
              match r5 with
              | [] => some (⟨m, d, y.1⟩, ([] : List Char))
              | c :: _ => if isDigitChar c then none else some (⟨m, d, y.1⟩, r5)
    | _ => []

/-- Positions after a whitespace character, scanned left to right. -/
def ccDateSearchAfterWs : List Char → Option DateTok
  | [] => none
  | c :: r =>
    if isSpaceChar c then
      match (ccDateCandsAt r).head? with
      | some x => some x.1
      | none => ccDateSearchAfterWs r
    else ccDateSearchAfterWs r

/-- Source `date_token.search(·)` of the credit-card parser. -/
def ccDateSearch (s : String) : Option DateTok :=
  match (ccDateCandsAt s.toList).head? with
  | some x => some x.1
  | none => ccDateSearchAfterWs s.toList

/-! ## Calendar validity (`datetime(year, month, day)`) -/

def isLeapYear (y : Nat) : Bool := (y % 4 = 0 ∧ y % 100 ≠ 0) ∨ y % 400 = 0

def daysInMonth (y m : Nat) : Nat :=
  if m = 2 then (if isLeapYear y then 29 else 28)
  else if m = 4 ∨ m = 6 ∨ m = 9 ∨ m = 11 then 30
  else 31

/-- Whether Python's `datetime(y, m, d)` succeeds (`MINYEAR = 1`,
`MAXYEAR = 9999`). -/
def dateValid (y m d : Nat) : Bool :=
  1 ≤ y ∧ y ≤ 9999 ∧ 1 ≤ m ∧ m ≤ 12 ∧ 1 ≤ d ∧ d ≤ daysInMonth y m

structure YMD where
  y : Nat
  m : Nat
  d : Nat
deriving DecidableEq, Repr

/-! ## Keyword matchers for the marker/summary/balance patterns -/

/-- Case-insensitive literal keyword at the head (keyword given lowercase). -/
def kwAt : List Char → List Char → Option (List Char)
  | [], cs => some cs
  | k :: ks, [] => (fun _ _ => none) k ks
  | k :: ks, c :: cs => if lowerChar c = k then kwAt ks cs else none

/-- Source `\s+` before a literal keyword: the maximal whitespace run is the only
viable split, since every following token starts with a non-space. -/
def skipWs1 (cs : List Char) : Option (List Char) :=
  if wsRunLen cs = 0 then none else some (cs.drop (wsRunLen cs))

/-- A `\s+`-separated keyword sequence anchored at `cs`. -/
def kwSeqAt : List (List Char) → List Char → Option (List Char)
  | [], cs => some cs
  | [w], cs => kwAt w cs
  | w :: w' :: ws, cs =>
    match kwAt w cs with
    | none => none
    | some r =>
      match skipWs1 r with
      | none => none
      | some r2 => kwSeqAt (w' :: ws) r2

def noWordNext : List Char → Bool
  | [] => true
  | c :: _ => ¬ isWordChar c

/-- Unanchored search for a keyword sequence (no word boundaries):
`DAILY\s+ENDING\s+BALANCE`. -/
def searchSeq (ws : List (List Char)) : List Char → Bool
  | [] => (kwSeqAt ws []).isSome
  | c :: r => (kwSeqAt ws (c :: r)).isSome || searchSeq ws r

/-- Source `^\s*<seq>\b`. -/
def startsKwSeqB (ws : List (List Char)) (s : String) : Bool :=
  match kwSeqAt ws (stripLeft s.toList) with
  | some r => noWordNext r
  | none => false

def isDailyBalLine (s : String) : Bool :=
  searchSeq ["daily".toList, "ending".toList, "balance".toList] s.toList

def isDepositsLine (s : String) : Bool :=
  startsKwSeqB ["deposits".toList, "and".toList, "additions".toList] s

def isWithdrawalsLine (s : String) : Bool :=
  startsKwSeqB ["electronic".toList, "withdrawals".toList] s

def isFeesLine (s : String) : Bool := startsKwSeqB ["fees".toList] s

def isTotalLine (s : String) : Bool := startsKwSeqB ["total".toList] s

/-- Source `_SUMMARY_WITHIN_ACTIVITY` / the credit-card `summary_guard`. -/
def isSummaryLine (s : String) : Bool :=
  startsKwSeqB ["transactions".toList, "this".toList, "cycle".toList] s ||
  startsKwSeqB ["including".toList, "payments".toList, "received".toList] s ||
  startsKwSeqB ["total".toList] s || startsKwSeqB ["subtotal".toList] s

/-- Search for `\b<seq>\b` anywhere; the flag records whether the previous
character was a word character (for the left boundary). -/
def searchWB (ws : List (List Char)) : Bool → List Char → Bool
  | _, [] => false
  | prevW, c :: r =>
    ((!prevW) && (match kwSeqAt ws (c :: r) with
                  | some rest => noWordNext rest
                  | none => false))
    || searchWB ws (isWordChar c) r

def hasNewBalance (s : String) : Bool :=
  searchWB ["new".toList, "balance".toList] false s.toList

def hasPrevBalance (s : String) : Bool :=
  searchWB ["previous".toList, "balance".toList] false s.toList ||
  searchWB ["balance".toList, "from".toList, "last".toList, "statement".toList] false s.toList ||
  searchWB ["prior".toList, "balance".toList] false s.toList

/-! ## `clean_text` -/

/-- A maximal nonempty digit run (`\d+` followed by a non-digit context). -/
def digitRun1 (cs : List Char) : Option (List Char) :=
  let k := (cs.takeWhile isDigitChar).length
  if k = 0 then none else some (cs.drop k)

/-- Source `\bPage\s+\d+\s+of\s+\d+\b` anchored at `cs` (left boundary checked by
the caller). -/
def pageMatchAt (cs : List Char) : Option (List Char) :=
  match kwAt "page".toList cs with
  | none => none
  | some r1 =>
    match skipWs1 r1 with
    | none => none
    | some r2 =>
      match digitRun1 r2 with
      | none => none
      | some r3 =>
        match skipWs1 r3 with
        | none => none
        | some r4 =>
          match kwAt "of".toList r4 with
          | none => none
          | some r5 =>
            match skipWs1 r5 with
            | none => none
            | some r6 =>
              match digitRun1 r6 with
              | none => none
              | some r7 => if noWordNext r7 then some r7 else none

/-- Source `re.sub(r"\bPage\s+\d+\s+of\s+\d+\b", "", ·)`: delete every
non-overlapping leftmost match. -/
def pageSubGo : Nat → Bool → List Char → List Char
  | 0, _, cs => cs
  | _ + 1, _, [] => []
  | n + 1, prevW, c :: rest =>
    if ¬ prevW then
      match pageMatchAt (c :: rest) with
      | some r => pageSubGo n true r
      | none => c :: pageSubGo n (isWordChar c) rest
    else c :: pageSubGo n (isWordChar c) rest

/-- Source `re.sub(r"\s+", " ", ·)`. -/
def collapseWsGo : Nat → List Char → List Char
  | 0, cs => cs
  | _ + 1, [] => []
  | n + 1, c :: r =>
    if isSpaceChar c then ' ' :: collapseWsGo n (r.dropWhile isSpaceChar)
    else c :: collapseWsGo n r

/-- Source `clean_text`: drop page markers, collapse whitespace, strip. -/
def cleanText (s : String) : String :=
  let cs := s.toList
  let cs1 := pageSubGo (cs.length + 1) false cs
  let cs2 := collapseWsGo (cs1.length + 1) cs1
  String.mk (stripRight (stripLeft cs2))

/-! ## The three header grammars of the checking parser -/

structure StrictG where
  d1 : DateTok
  d2 : Option DateTok
  desc : String
  amt : String
deriving DecidableEq, Repr

structure NoAmtG where
  d1 : DateTok
  d2 : Option DateTok
  desc : String
deriving DecidableEq, Repr

/-- Source `(?:\s+{date_re})?`: optional second date pair, presence preferred. -/
def secondDateCands (cs : List Char) : List (Option DateTok × List Char) :=
  ((wsPlusCands cs).flatMap fun r =>
    (chaseDateCands r).map (fun x => (some x.1, x.2))) ++ [(none, cs)]

/-- Source `tx_header_strict.match`:
pattern `^\s*D1(?:\s+D2)?\s+(.*?)\s+({amount_re})\s*$` with the engine's
backtracking order; returns the captured groups of the first full match. -/
def txHeaderStrict (s : String) : Option StrictG :=
  let cs := s.toList
  ((wsStarCands cs).flatMap fun r1 =>
    (chaseDateCands r1).flatMap fun x1 =>
      (secondDateCands x1.2).flatMap fun x2 =>
        (wsPlusCands x2.2).flatMap fun r4 =>
          r4.tails.flatMap fun r5 =>
            (wsPlusCands r5).flatMap fun r6 =>
              (amountCandsAt r6).flatMap fun r7 =>
                if r7.all isSpaceChar then
                  [(⟨x1.1, x2.1, String.mk (r4.take (r4.length - r5.length)),
                     String.mk (r6.take (r6.length - r7.length))⟩ : StrictG)]
                else []).head?

/-- Source `tx_header_no_amt.match`:
`^\s*D1(?:\s+D2)?\s+(?!.*{amount_re}\s*$)(.+)$`.  The negative lookahead
fails exactly when some amount token followed only by whitespace ends the
remainder. -/
def txHeaderNoAmt (s : String) : Option NoAmtG :=
  let cs := s.toList
  ((wsStarCands cs).flatMap fun r1 =>
    (chaseDateCands r1).flatMap fun x1 =>
      (secondDateCands x1.2).flatMap fun x2 =>
        (wsPlusCands x2.2).flatMap fun r4 =>
          if (amountTrailingList r4).isSome then []
          else if r4.isEmpty then []
          else [(⟨x1.1, x2.1, String.mk r4⟩ : NoAmtG)]).head?

/-- Source `tx_header_loose.match`: `.*?{date_re}.*?({amount_re})\s*$` as a
boolean gate (the code re-derives date and amount from the clipped line). -/
def txHeaderLoose (s : String) : Bool :=
  let cs := s.toList
  !((cs.tails.flatMap fun r1 =>
      (chaseDateCands r1).flatMap fun x1 =>
        (x1.2.tails.flatMap fun r3 =>
          (amountCandsAt r3).filter fun r4 => r4.all isSpaceChar))).isEmpty

/-! ## Year resolution -/

/-- Checking parser: `int((d2y or d1y) or str(default_year))`. -/
def chaseResolveYear (d2y d1y : Option Nat) (dy : Nat) : Nat :=
  match d2y with
  | some y => y
  | none =>
    match d1y with
    | some y => y
    | none => dy

/-- Date resolved from a one- or two-date header: month/day come from the
second pair when present, the year from the second pair's year, else the
first pair's, else the default. -/
def chaseHeaderDate (d1 : DateTok) (d2 : Option DateTok) (dy : Nat) : YMD :=
  let yr := chaseResolveYear (match d2 with | some t => t.yy | none => none) d1.yy dy
  match d2 with
  | some t => ⟨yr, t.mm, t.dd⟩
  | none => ⟨yr, d1.mm, d1.dd⟩

/-- Credit-card parser: `yy = (2000 + yy) if yy < 100 else yy`, default on a
missing year. -/
def ccResolveYear (yy : Option Nat) (dy : Nat) : Nat :=
  match yy with
  | none => dy
  | some y => if y < 100 then 2000 + y else y

/-! ## Checking parser state machine (`parse_chase_transactions_full`) -/

inductive Sect
  | deposit
  | withdrawal
  | fee
deriving DecidableEq, Repr

structure Totals where
  deposit : ℚ
  withdrawal : ℚ
  fee : ℚ
deriving DecidableEq, Repr

def Totals.get (t : Totals) : Sect → ℚ
  | .deposit => t.deposit
  | .withdrawal => t.withdrawal
  | .fee => t.fee

def Totals.set (t : Totals) (s : Sect) (v : ℚ) : Totals :=
  match s with
  | .deposit => { t with deposit := v }
  | .withdrawal => { t with withdrawal := v }
  | .fee => { t with fee := v }

structure Unparsed where
  deposit : List String
  withdrawal : List String
  fee : List String
deriving DecidableEq, Repr

def Unparsed.get (u : Unparsed) : Sect → List String
  | .deposit => u.deposit
  | .withdrawal => u.withdrawal
  | .fee => u.fee

def Unparsed.push (u : Unparsed) (s : Sect) (ln : String) : Unparsed :=
  match s with
  | .deposit => { u with deposit := u.deposit ++ [ln] }
  | .withdrawal => { u with withdrawal := u.withdrawal ++ [ln] }
  | .fee => { u with fee := u.fee ++ [ln] }

structure Tx where
  date : YMD
  amount : ℚ
  sect : Sect
  description : String
deriving DecidableEq, Repr

structure OpenRec where
  date : YMD
  amount : ℚ
  sect : Sect
  descLines : List String
deriving DecidableEq, Repr

structure Pending where
  date : YMD
  desc : String
  sect : Sect
deriving DecidableEq, Repr

structure ChaseState where
  sect : Option Sect
  current : Option OpenRec
  pending : Option Pending
  transactions : List Tx
  pdfTotals : Totals
  unparsed : Unparsed
deriving DecidableEq, Repr

/-- Source `finalize_current`: join description lines, append the record. -/
def OpenRec.toTx (c : OpenRec) : Tx :=
  ⟨c.date, c.amount, c.sect, pyStrip (String.intercalate "\n" c.descLines)⟩

def finalizeCurrent (st : ChaseState) : ChaseState :=
  match st.current with
  | none => st
  | some c => { st with transactions := st.transactions ++ [c.toTx], current := none }

def pushUnparsed (st : ChaseState) (s : Sect) (ln : String) : ChaseState :=
  { st with unparsed := st.unparsed.push s ln }

/-- Source `TOTAL` line: record the trailing amount's absolute value (if any),
finalize, clear the pending header. -/
def stepTotal (st : ChaseState) (s : Sect) (ln : String) : ChaseState :=
  match amountTrailing ln with
  | some g =>
    match normAmount g with
    | some v =>
      { finalizeCurrent { st with pdfTotals := st.pdfTotals.set s |v| } with pending := none }
    | none => { finalizeCurrent st with pending := none }
  | none => { finalizeCurrent st with pending := none }

/-- A line seen while a two-line header is pending. -/
def stepPending (st : ChaseState) (p : Pending) (ln : String) : ChaseState :=
  let clipped := stripAfterFirstAmount ln
  match amountSearch clipped with
  | some m =>
    match normAmount m with
    | some a =>
      { st with current := some ⟨p.date, a, p.sect, [p.desc, clipped]⟩, pending := none }
    | none => { st with pending := some { p with desc := p.desc ++ " " ++ clipped } }
  | none => { st with pending := some { p with desc := p.desc ++ " " ++ clipped } }

/-- Strict header: finalize first, then validate date and amount. -/
def stepStrict (dy : Nat) (st : ChaseState) (s : Sect) (g : StrictG) (ln : String) :
    ChaseState :=
  let st1 := finalizeCurrent st
  let d := chaseHeaderDate g.d1 g.d2 dy
  if dateValid d.y d.m d.d then
    match normAmount g.amt with
    | some a => { st1 with current := some ⟨d, a, s, [g.desc]⟩ }
    | none => pushUnparsed st1 s ln
  else pushUnparsed st1 s ln

/-- Header without amount: validate the date first (an invalid date leaves
any open record untouched), then finalize and enter the pending state. -/
def stepNoAmt (dy : Nat) (st : ChaseState) (s : Sect) (g : NoAmtG) (ln : String) :
    ChaseState :=
  let d := chaseHeaderDate g.d1 g.d2 dy
  if dateValid d.y d.m d.d then
    { finalizeCurrent st with pending := some ⟨d, g.desc, s⟩ }
  else pushUnparsed st s ln

/-- Loose header: re-derive date and amount from the clipped line. -/
def stepLoose (dy : Nat) (st : ChaseState) (s : Sect) (ln : String) : ChaseState :=
  let clipped := stripAfterFirstAmount ln
  match amountSearch clipped, dateSearch clipped with
  | some m, some t =>
    match normAmount m with
    | some a =>
      let yr := match t.yy with | some y => y | none => dy
      if dateValid yr t.mm t.dd then
        { finalizeCurrent st with current := some ⟨⟨yr, t.mm, t.dd⟩, a, s, [clipped]⟩ }
      else pushUnparsed st s ln
    | none => pushUnparsed st s ln
  | _, _ => pushUnparsed st s ln

/-- Continuation line: append the clipped line to the open record. -/
def stepContinuation (st : ChaseState) (c : OpenRec) (ln : String) : ChaseState :=
  { st with current := some { c with descLines := c.descLines ++ [stripAfterFirstAmount ln] } }

/-- One iteration of the checking parser's per-line loop. -/
def chaseStep (dy : Nat) (st : ChaseState) (raw : String) : ChaseState :=
  let ln := pyStrip raw
  if isDailyBalLine ln then { finalizeCurrent st with sect := none, pending := none }
  else if isDepositsLine ln then
    { finalizeCurrent st with sect := some .deposit, pending := none }
  else if isWithdrawalsLine ln then
    { finalizeCurrent st with sect := some .withdrawal, pending := none }
  else if isFeesLine ln then { finalizeCurrent st with sect := some .fee, pending := none }
  else
    match st.sect with
    | none => st
    | some s =>
      if isTotalLine ln then stepTotal st s ln
      else
        match st.pending with
        | some p => stepPending st p ln
        | none =>
          match txHeaderStrict ln with
          | some g => stepStrict dy st s g ln
          | none =>
            match txHeaderNoAmt ln with
            | some g => stepNoAmt dy st s g ln
            | none =>
              if txHeaderLoose ln then stepLoose dy st s ln
              else
                match st.current with
                | some c => stepContinuation st c ln
                | none => pushUnparsed st s ln

def chaseInit : ChaseState := ⟨none, none, none, [], ⟨0, 0, 0⟩, ⟨[], [], []⟩⟩

def chaseRun (dy : Nat) (st : ChaseState) (lines : List String) : ChaseState :=
  lines.foldl (chaseStep dy) st

/-- End of input: finalize any open record; an unresolved pending header
contributes its description to that section's unparsed list. -/
def chaseFinish (st : ChaseState) : ChaseState :=
  let st1 := finalizeCurrent st
  match st1.pending with
  | some p => pushUnparsed st1 p.sect p.desc
  | none => st1

/-- Source `parse_chase_transactions_full` on an already-split line sequence. -/
def parseChaseTransactionsFull (lines : List String) (dy : Nat) :
    List Tx × Totals × Unparsed :=
  let st := chaseFinish (chaseRun dy chaseInit lines)
  (st.transactions, st.pdfTotals, st.unparsed)

/-! ## Credit-card parser (`parse_credit_card_transactions_multiline`) -/

structure CCTx where
  date : YMD
  amount : ℚ
  desc : String
deriving DecidableEq, Repr

structure CCState where
  curDate : Option YMD
  curLines : List String
  txs : List CCTx
deriving DecidableEq, Repr

/-- First line whose first amount token parses; a line whose first token
fails to parse is skipped (the loop only breaks on success). -/
def firstAmount : List String → Option ℚ
  | [] => none
  | l :: ls =>
    match amountSearch l with
    | some m =>
      match normAmount m with
      | some v => some v
      | none => firstAmount ls
    | none => firstAmount ls

/-- The amount a single line contributes to the scan: its first amount
token, if that token parses. -/
def lineAmount (l : String) : Option ℚ := (amountSearch l).bind normAmount

/-- Scan order `(current_lines[-1], current_lines[0], *reversed(current_lines))`. -/
def ccScanOrder (ls : List String) : List String :=
  ls.getLast?.toList ++ ls.head?.toList ++ ls.reverse

def ccExtractAmount (ls : List String) : Option ℚ := firstAmount (ccScanOrder ls)

/-- Flush the accumulated block into a transaction (or drop it). -/
def ccFlush (st : CCState) : CCState :=
  match st.curDate, st.curLines with
  | some d, l :: ls =>
    let desc := cleanText (String.intercalate " " (l :: ls))
    match ccExtractAmount (l :: ls) with
    | some v => ⟨none, [], st.txs ++ [⟨d, v, desc⟩]⟩
    | none => ⟨none, [], st.txs⟩
  | _, _ => { st with curDate := none, curLines := [] }

/-- One iteration of the credit-card parser's block loop. -/
def ccStep (dy : Nat) (st : CCState) (raw : String) : CCState :=
  let ln := pyRstrip raw
  if isSummaryLine ln then ccFlush st
  else
    match ccDateSearch ln with
    | some t =>
      let st1 := ccFlush st
      let yr := ccResolveYear t.yy dy
      if dateValid yr t.mm t.dd then
        { st1 with curDate := some ⟨yr, t.mm, t.dd⟩, curLines := [ln] }
      else { st1 with curDate := none, curLines := [ln] }
    | none =>
      if st.curDate.isSome then { st with curLines := st.curLines ++ [ln] }
      else st

/-- Balance scan over the region before the first transaction-looking line:
returns `(new_balance, prev_balance)`. -/
def ccScanBalances (lines : List String) : Option ℚ × Option ℚ :=
  lines.foldl
    (fun acc ln =>
      let nb :=
        if acc.1.isNone ∧ hasNewBalance ln then
          match amountSearch ln with
          | some m =>
            match normAmount m with
            | some v => some v
            | none => acc.1
          | none => acc.1
        else acc.1
      let pb :=
        if acc.2.isNone ∧ hasPrevBalance ln then
          match amountSearch ln with
          | some m =>
            match normAmount m with
            | some v => some v
            | none => acc.2
          | none => acc.2
        else acc.2
      (nb, pb))
    (none, none)

/-- Source `parse_credit_card_transactions_multiline` on an already-split
line sequence: `(transactions, new_balance, prev_balance)`. -/
def parseCreditCardTransactionsMultiline (lines : List String) (dy : Nat) :
    List CCTx × Option ℚ × Option ℚ :=
  match lines.findIdx? (fun ln => (ccDateSearch ln).isSome) with
  | none =>
    let b := ccScanBalances lines
    ([], b.1, b.2)
  | some i =>
    let b := ccScanBalances (lines.take i)
    let st := ccFlush ((lines.drop i).foldl (ccStep dy) ⟨none, [], []⟩)
    (st.txs, b.1, b.2)

/-! ## Reconciliation (`main`) -/

/-- Tolerances of `math.isclose(a, b, abs_tol=0.01)`: the default relative
tolerance `1e-9` stays in force. -/
def relTol : ℚ := 1 / 1000000000

def absTolCent : ℚ := 1 / 100

/-- Python `math.isclose(a, b, abs_tol=0.01)`:
`|a-b| <= max(1e-9 * max(|a|, |b|), 0.01)`. -/
def isclose (a b : ℚ) : Bool :=
  decide (|a - b| ≤ max (relTol * max |a| |b|) absTolCent)

/-- Python `round(x, 2)` on the exact values arising here. -/
def roundCents (q : ℚ) : ℚ := ((round (q * 100) : ℤ) : ℚ) / 100

/-- Source `compute_section_sums`: accumulate absolute amounts per section,
then round each to the cent. -/
def sumsAccum (txs : List Tx) : Totals :=
  txs.foldl (fun acc t => acc.set t.sect (acc.get t.sect + |t.amount|)) ⟨0, 0, 0⟩

def computeSectionSums (txs : List Tx) : Totals :=
  let s := sumsAccum txs
  ⟨roundCents s.deposit, roundCents s.withdrawal, roundCents s.fee⟩

/-- Transactions reordered deposits, withdrawals, fees (as written to the
register and fed to `compute_section_sums`). -/
def orderedTx (txs : List Tx) : List Tx :=
  txs.filter (fun t => decide (t.sect = Sect.deposit)) ++
  txs.filter (fun t => decide (t.sect = Sect.withdrawal)) ++
  txs.filter (fun t => decide (t.sect = Sect.fee))

inductive Outcome
  | pass
  | warned (msg : String)
  | raised (msg : String)
deriving DecidableEq, Repr

/-- The message of the checking-section hard failure (a fixed sentence). -/
def chaseMismatchMsg : String :=
  "Section totals mismatch between PDF and parsed data. Use --force to proceed."

def checkingMismatches (pdfTotals sums : Totals) : List Sect :=
  [Sect.deposit, Sect.withdrawal, Sect.fee].filter
    (fun s => !(isclose (pdfTotals.get s) (sums.get s)))

/-- The checking branch of `main`: raise unless `--force`. -/
def checkingValidation (force : Bool) (pdfTotals sums : Totals) : Outcome :=
  if checkingMismatches pdfTotals sums ≠ [] ∧ ¬force then Outcome.raised chaseMismatchMsg
  else if checkingMismatches pdfTotals sums ≠ [] then
    Outcome.warned "[WARN] Totals mismatch, but --force specified; continuing."
  else Outcome.pass

/-- Python `f"{x:.2f}"` on the cent values arising here. -/
def fmt2 (q : ℚ) : String :=
  let m : ℤ := round (q * 100)
  let n := m.natAbs
  (if m < 0 then "-" else "") ++ toString (n / 100) ++ "." ++
    (if n % 100 < 10 then "0" else "") ++ toString (n % 100)

def ccMissingMsg (missingPrev missingNew : Bool) (digits : String) : String :=
  let names := (if missingPrev then ["Previous"] else []) ++
               (if missingNew then ["New"] else [])
  "Missing " ++ String.intercalate " and " names ++ " balance(s) for *" ++ digits ++
    "*; cannot validate."

def ccMismatchMsg (digits : String) (p sumAll lhs n : ℚ) : String :=
  "Validation failed for *" ++ digits ++ "*: Previous ($" ++ fmt2 p ++ ") + Σ($" ++
    fmt2 sumAll ++ ") = $" ++ fmt2 lhs ++ " != New ($" ++ fmt2 n ++ ")"

/-- Source `sum_all = round(sum(float(t["Amount"]) for t in cc_txs), 2)`. -/
def ccSumAll (txs : List CCTx) : ℚ := roundCents ((txs.map (fun t => t.amount)).sum)

/-- The credit-card validation of `main`: missing balances or a failed
`Previous + Σ == New` check raise unless `--force`. -/
def ccValidation (digits : String) (force : Bool) (newB prevB : Option ℚ)
    (sumAll : ℚ) : Outcome :=
  match prevB, newB with
  | some p, some n =>
    let lhs := roundCents (p + sumAll)
    let rhs := roundCents n
    if ¬ isclose lhs rhs then
      if ¬ force then Outcome.raised (ccMismatchMsg digits p sumAll lhs n)
      else Outcome.warned ("[WARN] " ++ ccMismatchMsg digits p sumAll lhs n ++
        " — continuing due to --force.")
    else Outcome.pass
  | _, _ =>
    let msg := ccMissingMsg prevB.isNone newB.isNone digits
    if ¬ force then Outcome.raised msg
    else Outcome.warned ("[WARN] " ++ msg ++ " — continuing due to --force.")

/-! ## Comparison definitions and concrete statements used by the claims -/

/-- Substring containment (used to state what a diagnostic message
reports). -/
def containsSub (sub s : String) : Prop := sub.data <:+: s.data

instance containsSub.instDecidable (sub s : String) : Decidable (containsSub sub s) := by
  unfold containsSub
  infer_instance

/-- Modelled from the spec: the "whitespace-normalized concatenation of the
block's lines" that the specification says a credit-card description equals
(to be compared with the code's `clean_text`, which also deletes
`Page N of M` markers). -/
def wsNormalizedConcat (ls : List String) : String :=
  let cs := (String.intercalate " " ls).toList
  String.mk (stripRight (stripLeft (collapseWsGo (cs.length + 1) cs)))

/-- Three deposits summing exactly to the printed `TOTAL`. -/
def okLines : List String :=
  ["DEPOSITS AND ADDITIONS", "07/01 A 5,000.00", "07/02 B 5,000.00",
   "07/03 C 5,000.00", "TOTAL 15,000.00"]

/-- The same statement with one amount perturbed by `0.02`. -/
def perturbedLines : List String :=
  ["DEPOSITS AND ADDITIONS", "07/01 A 5,000.00", "07/02 B 5,000.00",
   "07/03 C 5,000.02", "TOTAL 15,000.00"]

/-- A deposit off by two cents from the printed total at a magnitude where
`math.isclose`'s relative tolerance exceeds one cent. -/
def bigLines : List String :=
  ["DEPOSITS AND ADDITIONS", "07/01 BIG WIRE 20,000,000.02", "TOTAL 20,000,000.00"]

/-- A credit-card statement two cents out of balance at a magnitude where
the relative tolerance exceeds one cent. -/
def ccBigLines : List String :=
  ["PREVIOUS BALANCE 20,000,000.00", "NEW BALANCE 20,000,000.00",
   "01/05 TINY CHARGE 0.02"]

/-- A credit-card block whose description text contains a page marker. -/
def ccPageLines : List String :=
  ["NEW BALANCE 100.00", "PREVIOUS BALANCE 50.00",
   "07/15 AMAZON Page 1 of 2 PURCHASE", "12.34"]

/-- A credit-card statement whose first block carries the invalid date
`02/30`; its lines are followed by one valid transaction. -/
def ccBadDateLines : List String :=
  ["NEW BALANCE 10.00", "PREVIOUS BALANCE 10.00", "02/30 BAD CHARGE 5.00",
   "EXTRA DESC 7.00", "03/01 GOOD 10.00"]

/-- The strict-header example with two date pairs. -/
def demoStrictLines : List String :=
  ["DEPOSITS AND ADDITIONS", "07/15 08/15 ACH DEPOSIT WIDGETS INC 10,000.00"]

/-- The two-line-header example under Withdrawals. -/
def demoPendingLines : List String :=
  ["ELECTRONIC WITHDRAWALS", "07/16 PAYROLL FUNDING", "  500.00"]

/-- A deposits section with no `TOTAL` line at all. -/
def noTotalLines : List String := ["DEPOSITS AND ADDITIONS", "07/01 X 5.00"]

/-- The same section closed by a printed `TOTAL 0.00`. -/
def totalZeroLines : List String :=
  ["DEPOSITS AND ADDITIONS", "07/01 X 5.00", "TOTAL 0.00"]

/-- A state inside the Deposits section with nothing open (for witnesses). -/
def stDeposit : ChaseState := { chaseInit with sect := some Sect.deposit }

/-- An open record, to watch finalization happen (for witnesses). -/
def demoOpenRec : OpenRec := ⟨⟨2024, 7, 1⟩, 25, Sect.deposit, ["EARLIER ITEM"]⟩

/-- A state with an open record inside the Deposits section. -/
def stDepositOpen : ChaseState :=
  { chaseInit with sect := some Sect.deposit, current := some demoOpenRec }

/-- The parser state after a withdrawals marker and a two-line header whose
amount line never arrives. -/
def stPendingEnd : ChaseState :=
  chaseRun 2024 chaseInit ["ELECTRONIC WITHDRAWALS", "07/16 PAYROLL FUNDING"]

/-- A pending-header state (for witnesses). -/
def demoPending : Pending := ⟨⟨2024, 7, 16⟩, "PAYROLL FUNDING", Sect.withdrawal⟩

/-- A state carrying that pending header. -/
def stPending : ChaseState :=
  { chaseInit with sect := some Sect.withdrawal, pending := some demoPending }

/-- A credit-card block state in progress (for witnesses). -/
def ccStBlock : CCState := ⟨some ⟨2024, 7, 8⟩, ["07/08 OLD CHARGE 3.00"], []⟩

/-- A credit-card state with no date (after an invalid-date line). -/
def ccStDateless : CCState := ⟨none, ["02/30 BAD CHARGE 5.00"], []⟩

/-! ## Helper lemmas -/

theorem Totals.get_set (t : Totals) (s s' : Sect) (v : ℚ) :
    (t.set s v).get s' = if s' = s then v else t.get s' := by
  cases s <;> cases s' <;> simp [Totals.get, Totals.set]

theorem Unparsed.get_push (u : Unparsed) (s s' : Sect) (ln : String) :
    (u.push s ln).get s' = if s' = s then u.get s' ++ [ln] else u.get s' := by
  cases s <;> cases s' <;> simp [Unparsed.get, Unparsed.push]

theorem finalizeCurrent_sect (st : ChaseState) : (finalizeCurrent st).sect = st.sect := by
  unfold finalizeCurrent; split <;> rfl

theorem finalizeCurrent_pdfTotals (st : ChaseState) :
    (finalizeCurrent st).pdfTotals = st.pdfTotals := by
  unfold finalizeCurrent; split <;> rfl

theorem finalizeCurrent_unparsed (st : ChaseState) :
    (finalizeCurrent st).unparsed = st.unparsed := by
  unfold finalizeCurrent; split <;> rfl

theorem finalizeCurrent_pending (st : ChaseState) :
    (finalizeCurrent st).pending = st.pending := by
  unfold finalizeCurrent; split <;> rfl

theorem finalizeCurrent_current (st : ChaseState) : (finalizeCurrent st).current = none := by
  unfold finalizeCurrent; split <;> simp_all

theorem finalizeCurrent_transactions (st : ChaseState) :
    (finalizeCurrent st).transactions =
      st.transactions ++ (match st.current with | some c => [c.toTx] | none => []) := by
  unfold finalizeCurrent; split <;> simp_all

theorem sumsAccum_go (txs : List Tx) (acc : Totals) (s : Sect) :
    (txs.foldl (fun a t => a.set t.sect (a.get t.sect + |t.amount|)) acc).get s =
      acc.get s + ((txs.filter (fun t => decide (t.sect = s))).map (fun t => |t.amount|)).sum := by
  induction txs generalizing acc with
  | nil => simp
  | cons t ts ih =>
    simp only [List.foldl_cons, ih, List.filter_cons]
    by_cases h : t.sect = s
    · subst h
      simp [Totals.get_set, add_assoc]
    · have h' : s ≠ t.sect := fun hc => h hc.symm
      simp [h, h', Totals.get_set]

theorem sumsAccum_get (txs : List Tx) (s : Sect) :
    (sumsAccum txs).get s =
      ((txs.filter (fun t => decide (t.sect = s))).map (fun t => |t.amount|)).sum := by
  have h := sumsAccum_go txs ⟨0, 0, 0⟩ s
  have h0 : (Totals.get ⟨0, 0, 0⟩ s) = 0 := by cases s <;> rfl
  simpa [sumsAccum, h0] using h

theorem computeSectionSums_get (txs : List Tx) (s : Sect) :
    (computeSectionSums txs).get s =
      roundCents (((txs.filter (fun t => decide (t.sect = s))).map
        (fun t => |t.amount|)).sum) := by
  have h := sumsAccum_get txs s
  cases s <;> simpa [computeSectionSums, Totals.get] using congrArg roundCents h

theorem orderedTx_perm (txs : List Tx) : List.Perm (orderedTx txs) txs := by
  unfold orderedTx
  rw [List.append_assoc]
  have h1 := List.filter_append_perm (fun t => decide (t.sect = Sect.deposit)) txs
  refine (List.Perm.append_left _ ?_).trans h1
  have h2 := List.filter_append_perm (fun t => decide (t.sect = Sect.withdrawal))
    (txs.filter (fun t => !decide (t.sect = Sect.deposit)))
  have e1 : (txs.filter (fun t => !decide (t.sect = Sect.deposit))).filter
      (fun t => decide (t.sect = Sect.withdrawal)) =
      txs.filter (fun t => decide (t.sect = Sect.withdrawal)) := by
    rw [List.filter_filter]
    refine List.filter_congr ?_
    intro t _
    cases h : t.sect <;> simp [h]
  have e2 : (txs.filter (fun t => !decide (t.sect = Sect.deposit))).filter
      (fun t => !decide (t.sect = Sect.withdrawal)) =
      txs.filter (fun t => decide (t.sect = Sect.fee)) := by
    rw [List.filter_filter]
    refine List.filter_congr ?_
    intro t _
    cases h : t.sect <;> simp [h]
  rw [e1, e2] at h2
  exact h2

theorem stepTotal_unparsed (st : ChaseState) (s : Sect) (ln : String) :
    (stepTotal st s ln).unparsed = st.unparsed := by
  unfold stepTotal
  split
  · split <;> simp [finalizeCurrent_unparsed]
  · simp [finalizeCurrent_unparsed]

theorem stepTotal_totals (st : ChaseState) (s : Sect) (ln : String) :
    (stepTotal st s ln).pdfTotals = st.pdfTotals ∨
    ∃ g v, amountTrailing ln = some g ∧ normAmount g = some v ∧
      (stepTotal st s ln).pdfTotals = st.pdfTotals.set s |v| := by
  unfold stepTotal
  split
  · rename_i g hg
    split
    · rename_i v hv
      right
      exact ⟨g, v, hg, hv, by simp [finalizeCurrent_pdfTotals]⟩
    · left; simp [finalizeCurrent_pdfTotals]
  · left; simp [finalizeCurrent_pdfTotals]

theorem stepPending_unparsed (st : ChaseState) (p : Pending) (ln : String) :
    (stepPending st p ln).unparsed = st.unparsed := by
  unfold stepPending
  dsimp only
  split
  · split <;> rfl
  · rfl

theorem stepPending_totals (st : ChaseState) (p : Pending) (ln : String) :
    (stepPending st p ln).pdfTotals = st.pdfTotals := by
  unfold stepPending
  dsimp only
  split
  · split <;> rfl
  · rfl

theorem stepStrict_unparsed (dy : Nat) (st : ChaseState) (s : Sect) (g : StrictG)
    (ln : String) :
    (stepStrict dy st s g ln).unparsed = st.unparsed ∨
    (stepStrict dy st s g ln).unparsed = st.unparsed.push s ln := by
  unfold stepStrict
  dsimp only
  split
  · split
    · left; simp [finalizeCurrent_unparsed]
    · right; simp [pushUnparsed, finalizeCurrent_unparsed]
  · right; simp [pushUnparsed, finalizeCurrent_unparsed]

theorem stepStrict_totals (dy : Nat) (st : ChaseState) (s : Sect) (g : StrictG)
    (ln : String) : (stepStrict dy st s g ln).pdfTotals = st.pdfTotals := by
  unfold stepStrict
  dsimp only
  split
  · split <;> simp [pushUnparsed, finalizeCurrent_pdfTotals]
  · simp [pushUnparsed, finalizeCurrent_pdfTotals]

theorem stepNoAmt_unparsed (dy : Nat) (st : ChaseState) (s : Sect) (g : NoAmtG)
    (ln : String) :
    (stepNoAmt dy st s g ln).unparsed = st.unparsed ∨
    (stepNoAmt dy st s g ln).unparsed = st.unparsed.push s ln := by
  unfold stepNoAmt
  dsimp only
  split
  · left; simp [finalizeCurrent_unparsed]
  · right; simp [pushUnparsed]

theorem stepNoAmt_totals (dy : Nat) (st : ChaseState) (s : Sect) (g : NoAmtG)
    (ln : String) : (stepNoAmt dy st s g ln).pdfTotals = st.pdfTotals := by
  unfold stepNoAmt
  dsimp only
  split
  · simp [finalizeCurrent_pdfTotals]
  · simp [pushUnparsed]

theorem stepLoose_unparsed (dy : Nat) (st : ChaseState) (s : Sect) (ln : String) :
    (stepLoose dy st s ln).unparsed = st.unparsed ∨
    (stepLoose dy st s ln).unparsed = st.unparsed.push s ln := by
  unfold stepLoose
  dsimp only
  split
  · split
    · split
      · left; simp [finalizeCurrent_unparsed]
      · right; simp [pushUnparsed]
    · right; simp [pushUnparsed]
  · right; simp [pushUnparsed]

theorem stepLoose_totals (dy : Nat) (st : ChaseState) (s : Sect) (ln : String) :
    (stepLoose dy st s ln).pdfTotals = st.pdfTotals := by
  unfold stepLoose
  dsimp only
  split
  · split
    · split <;> simp [pushUnparsed, finalizeCurrent_pdfTotals]
    · simp [pushUnparsed]
  · simp [pushUnparsed]

theorem chaseStep_unparsed_cases (dy : Nat) (st : ChaseState) (raw : String) :
    (chaseStep dy st raw).unparsed = st.unparsed ∨
    ∃ s, st.sect = some s ∧
      (chaseStep dy st raw).unparsed = st.unparsed.push s (pyStrip raw) := by
  unfold chaseStep
  dsimp only
  split
  · left; simp [finalizeCurrent_unparsed]
  · split
    · left; simp [finalizeCurrent_unparsed]
    · split
      · left; simp [finalizeCurrent_unparsed]
      · split
        · left; simp [finalizeCurrent_unparsed]
        · split
          · left; rfl
          · rename_i s hs
            split
            · left; exact stepTotal_unparsed st s (pyStrip raw)
            · split
              · left; exact stepPending_unparsed st _ (pyStrip raw)
              · split
                · rcases stepStrict_unparsed dy st s _ (pyStrip raw) with h | h
                  · left; exact h
                  · right; exact ⟨s, hs, h⟩
                · split
                  · rcases stepNoAmt_unparsed dy st s _ (pyStrip raw) with h | h
                    · left; exact h
                    · right; exact ⟨s, hs, h⟩
                  · split
                    · rcases stepLoose_unparsed dy st s (pyStrip raw) with h | h
                      · left; exact h
                      · right; exact ⟨s, hs, h⟩
                    · split
                      · left; rfl
                      · right; exact ⟨s, hs, rfl⟩

theorem chaseStep_totals_cases (dy : Nat) (st : ChaseState) (raw : String) :
    (chaseStep dy st raw).pdfTotals = st.pdfTotals ∨
    ∃ s g v, st.sect = some s ∧ isTotalLine (pyStrip raw) = true ∧
      amountTrailing (pyStrip raw) = some g ∧ normAmount g = some v ∧
      (chaseStep dy st raw).pdfTotals = st.pdfTotals.set s |v| := by
  unfold chaseStep
  dsimp only
  split
  · left; simp [finalizeCurrent_pdfTotals]
  · split
    · left; simp [finalizeCurrent_pdfTotals]
    · split
      · left; simp [finalizeCurrent_pdfTotals]
      · split
        · left; simp [finalizeCurrent_pdfTotals]
        · split
          · left; rfl
          · rename_i s hs
            split
            · rename_i ht
              rcases stepTotal_totals st s (pyStrip raw) with h | ⟨g, v, hg, hv, h⟩
              · left; exact h
              · right; exact ⟨s, g, v, hs, ht, hg, hv, h⟩
            · split
              · left; exact stepPending_totals st _ (pyStrip raw)
              · split
                · left; exact stepStrict_totals dy st s _ (pyStrip raw)
                · split
                  · left; exact stepNoAmt_totals dy st s _ (pyStrip raw)
                  · split
                    · left; exact stepLoose_totals dy st s (pyStrip raw)
                    · split
                      · left; rfl
                      · left; rfl

theorem chaseRun_unparsed_mono (dy : Nat) (lines : List String) (st : ChaseState)
    (s : Sect) : st.unparsed.get s <+: (chaseRun dy st lines).unparsed.get s := by
  induction lines generalizing st with
  | nil => exact List.prefix_refl _
  | cons l ls ih =>
    refine List.IsPrefix.trans ?_ (ih (chaseStep dy st l))
    rcases chaseStep_unparsed_cases dy st l with h | ⟨s', _, h⟩
    · rw [h]
    · rw [h, Unparsed.get_push]
      split
      · exact ⟨[pyStrip l], rfl⟩
      · exact List.prefix_refl _

theorem chaseRun_totals_nonneg (dy : Nat) (lines : List String) (st : ChaseState)
    (h : ∀ s, 0 ≤ st.pdfTotals.get s) :
    ∀ s, 0 ≤ (chaseRun dy st lines).pdfTotals.get s := by
  induction lines generalizing st with
  | nil => exact h
  | cons l ls ih =>
    refine ih (chaseStep dy st l) ?_
    intro s
    rcases chaseStep_totals_cases dy st l with hc | ⟨s', g, v, _, _, _, _, hc⟩
    · rw [hc]; exact h s
    · rw [hc, Totals.get_set]
      split
      · exact abs_nonneg v
      · exact h s

theorem chaseFinish_pdfTotals (st : ChaseState) :
    (chaseFinish st).pdfTotals = st.pdfTotals := by
  unfold chaseFinish
  dsimp only
  split <;> simp [pushUnparsed, finalizeCurrent_pdfTotals, finalizeCurrent_pending]

theorem chaseFinish_unparsed_mono (st : ChaseState) (s : Sect) :
    st.unparsed.get s <+: (chaseFinish st).unparsed.get s := by
  unfold chaseFinish
  dsimp only
  split
  · rename_i p _
    simp only [pushUnparsed, finalizeCurrent_unparsed, Unparsed.get_push]
    split
    · exact ⟨[p.desc], rfl⟩
    · exact List.prefix_refl _
  · rw [finalizeCurrent_unparsed]

theorem firstAmount_cons (l : String) (ls : List String) :
    firstAmount (l :: ls) =
      (match lineAmount l with | some v => some v | none => firstAmount ls) := by
  unfold lineAmount
  cases h : amountSearch l with
  | none => simp [firstAmount, h]
  | some m =>
    cases hn : normAmount m with
    | none => simp [firstAmount, h, hn]
    | some v => simp [firstAmount, h, hn]

theorem firstAmount_append (xs ys : List String) :
    firstAmount (xs ++ ys) =
      (match firstAmount xs with | some v => some v | none => firstAmount ys) := by
  induction xs with
  | nil => simp [firstAmount]
  | cons l ls ih =>
    rw [List.cons_append, firstAmount_cons, firstAmount_cons]
    cases lineAmount l
    · simpa using ih
    · rfl

/-- The code's scan sequence duplicates the last and first lines inside
`reversed(current_lines)`; the first parsed amount coincides with the one
found by scanning last line, first line, then the remaining lines in
reverse. -/
theorem firstAmount_nil : firstAmount [] = none := rfl

theorem ccExtractAmount_claimOrder (l : String) (rest : List String) :
    ccExtractAmount (l :: rest) =
      firstAmount ((l :: rest).getLastD l :: l :: rest.dropLast.reverse) := by
  rcases List.eq_nil_or_concat' rest with h | ⟨init, z, h⟩ <;> subst h
  · show firstAmount [l, l, l] = firstAmount [l, l]
    cases h : lineAmount l <;>
      simp only [firstAmount_cons, firstAmount_nil, h]
  · have hgl : (l :: (init ++ [z])).getLast? = some z := by
      rw [show l :: (init ++ [z]) = (l :: init) ++ [z] from rfl]
      exact List.getLast?_concat _
    have hgd : (l :: (init ++ [z])).getLastD l = z := by
      rw [List.getLastD_eq_getLast?, hgl]; rfl
    have hscan : ccScanOrder (l :: (init ++ [z])) = z :: l :: z :: (init.reverse ++ [l]) := by
      simp [ccScanOrder, hgl]
    rw [show ccExtractAmount (l :: (init ++ [z])) =
      firstAmount (ccScanOrder (l :: (init ++ [z]))) from rfl]
    rw [hscan, hgd, List.dropLast_concat]
    cases hz : lineAmount z <;> cases hl : lineAmount l <;>
      simp only [firstAmount_cons, firstAmount_append, firstAmount_nil, hz, hl] <;>
      (try cases firstAmount init.reverse) <;> rfl

theorem month2_bounds : ∀ {cs : List Char} {m : Nat} {r : List Char},
    month2 cs = some (m, r) → 1 ≤ m ∧ m ≤ 12 := by
  intro cs m r h
  unfold month2 at h
  split at h
  · rename_i a b t
    split at h
    · rename_i hc
      obtain ⟨hm, -⟩ := Prod.mk.injEq .. ▸ Option.some.inj h
      unfold digitVal at hm
      omega
    · split at h
      · rename_i hc
        obtain ⟨hm, -⟩ := Prod.mk.injEq .. ▸ Option.some.inj h
        unfold digitVal at hm
        omega
      · exact absurd h (by simp)
  · exact absurd h (by simp)

theorem day2_bounds : ∀ {cs : List Char} {d : Nat} {r : List Char},
    day2 cs = some (d, r) → 1 ≤ d ∧ d ≤ 31 := by
  intro cs d r h
  unfold day2 at h
  split at h
  · rename_i a b t
    split at h
    · rename_i hc
      obtain ⟨hm, -⟩ := Prod.mk.injEq .. ▸ Option.some.inj h
      unfold digitVal at hm
      omega
    · split at h
      · rename_i hc
        obtain ⟨hm, -⟩ := Prod.mk.injEq .. ▸ Option.some.inj h
        obtain ⟨ha, hb⟩ := hc
        unfold isDigitChar at hb
        have hb' : 48 ≤ b.toNat ∧ b.toNat ≤ 57 := by simpa using hb
        unfold digitVal at hm
        rcases ha with ha | ha <;> subst ha <;> simp at hm <;> omega
      · split at h
        · rename_i hc
          obtain ⟨hm, -⟩ := Prod.mk.injEq .. ▸ Option.some.inj h
          unfold digitVal at hm
          rcases hc.2 with hb | hb <;> subst hb <;> simp at hm <;> omega
        · exact absurd h (by simp)
  · exact absurd h (by simp)

theorem yearCands20_bounds {cs : List Char} {x : Option Nat × List Char}
    (hx : x ∈ yearCands20 cs) : ∀ y, x.1 = some y → 2000 ≤ y ∧ y ≤ 2099 := by
  intro y hy
  unfold yearCands20 at hx
  split at hx
  · rename_i a b t
    split at hx
    · rename_i hc
      obtain ⟨ha, hb⟩ := hc
      unfold isDigitChar at ha hb
      have ha' : 48 ≤ a.toNat ∧ a.toNat ≤ 57 := by simpa using ha
      have hb' : 48 ≤ b.toNat ∧ b.toNat ≤ 57 := by simpa using hb
      simp only [List.mem_cons, List.not_mem_nil, or_false] at hx
      rcases hx with hx | hx
      · subst hx
        simp only [Option.some.injEq] at hy
        unfold digitVal at hy
        omega
      · subst hx
        simp at hy
    · simp only [List.mem_cons, List.not_mem_nil, or_false] at hx
      subst hx
      simp at hy
  · simp only [List.mem_cons, List.not_mem_nil, or_false] at hx
    subst hx
    simp at hy

theorem chaseDateCands_bounds {cs : List Char} {x : DateTok × List Char}
    (h : x ∈ chaseDateCands cs) :
    1 ≤ x.1.mm ∧ x.1.mm ≤ 12 ∧ 1 ≤ x.1.dd ∧ x.1.dd ≤ 31 ∧
      ∀ y, x.1.yy = some y → 2000 ≤ y ∧ y ≤ 2099 := by
  unfold chaseDateCands at h
  split at h
  · simp at h
  · rename_i m r1 hm
    split at h
    · rename_i r2
      split at h
      · simp at h
      · rename_i d r3 hd
        obtain ⟨yc, hyc, hxe⟩ := List.mem_map.mp h
        subst hxe
        obtain ⟨hm1, hm2⟩ := month2_bounds hm
        obtain ⟨hd1, hd2⟩ := day2_bounds hd
        exact ⟨hm1, hm2, hd1, hd2, yearCands20_bounds hyc⟩
    · simp at h

theorem takeDigitsVal_bound : ∀ (n acc : Nat) (cs : List Char) (p : Nat × List Char),
    takeDigitsVal n acc cs = some p → p.1 < (acc + 1) * 10 ^ n := by
  intro n
  induction n with
  | zero =>
    intro acc cs p h
    obtain rfl := Option.some.inj h
    simpa using Nat.lt_succ_self acc
  | succ n ih =>
    intro acc cs p h
    cases cs with
    | nil => cases h
    | cons c cs' =>
      rw [show takeDigitsVal (n + 1) acc (c :: cs') =
        (if isDigitChar c then takeDigitsVal n (10 * acc + digitVal c) cs' else none)
        from rfl] at h
      split at h
      · rename_i hc
        have hb := ih (10 * acc + digitVal c) cs' p h
        unfold isDigitChar at hc
        have hc' : 48 ≤ c.toNat ∧ c.toNat ≤ 57 := by simpa using hc
        have hd9 : digitVal c ≤ 9 := by unfold digitVal; omega
        calc p.1 < (10 * acc + digitVal c + 1) * 10 ^ n := hb
          _ ≤ ((acc + 1) * 10) * 10 ^ n := by
            have hle : 10 * acc + digitVal c + 1 ≤ (acc + 1) * 10 := by omega
            exact Nat.mul_le_mul_right _ hle
          _ = (acc + 1) * 10 ^ (n + 1) := by ring
      · cases h

theorem ccYearCands_bounds {cs : List Char} {x : Option Nat × List Char}
    (hx : x ∈ ccYearCands cs) : ∀ y, x.1 = some y → y ≤ 9999 := by
  intro y hy
  unfold ccYearCands at hx
  rw [List.mem_append] at hx
  rcases hx with hx | hx
  · split at hx
    · rename_i r
      obtain ⟨x', hmem, hxe⟩ := List.mem_map.mp hx
      obtain ⟨n4, hn4, htd⟩ := List.mem_filterMap.mp hmem
      subst hxe
      simp only [Option.some.injEq] at hy
      subst hy
      have hb := takeDigitsVal_bound n4 0 r x' htd
      have h4 : (0 + 1) * 10 ^ n4 ≤ 10000 := by
        simp only [List.mem_cons, List.not_mem_nil, or_false] at hn4
        rcases hn4 with rfl | rfl | rfl <;> norm_num
      omega
    · simp at hx
  · simp only [List.mem_cons, List.not_mem_nil, or_false] at hx
    subst hx
    simp at hy

theorem ccDateCandsAt_bounds {cs : List Char} {x : DateTok × List Char}
    (h : x ∈ ccDateCandsAt cs) :
    1 ≤ x.1.mm ∧ x.1.mm ≤ 12 ∧ 1 ≤ x.1.dd ∧ x.1.dd ≤ 31 ∧
      ∀ y, x.1.yy = some y → y ≤ 9999 := by
  unfold ccDateCandsAt at h
  split at h
  · simp at h
  · rename_i m r1 hm
    split at h
    · rename_i r2
      split at h
      · simp at h
      · rename_i d r3 hd
        obtain ⟨yc, hyc, hmem2⟩ := List.mem_flatMap.mp h
        obtain ⟨r5, -, hfm⟩ := List.mem_filterMap.mp hmem2
        obtain ⟨hm1, hm2⟩ := month2_bounds hm
        obtain ⟨hd1, hd2⟩ := day2_bounds hd
        have hyy : x.1.yy = yc.1 := by
          split at hfm
          · obtain rfl := Option.some.inj hfm
            rfl
          · split at hfm
            · simp at hfm
            · obtain rfl := Option.some.inj hfm
              rfl
        refine ⟨?_, ?_, ?_, ?_, ?_⟩
        · have hmm : x.1.mm = m := by
            split at hfm
            · obtain rfl := Option.some.inj hfm; rfl
            · split at hfm
              · simp at hfm
              · obtain rfl := Option.some.inj hfm; rfl
          rw [hmm]; exact hm1
        · have hmm : x.1.mm = m := by
            split at hfm
            · obtain rfl := Option.some.inj hfm; rfl
            · split at hfm
              · simp at hfm
              · obtain rfl := Option.some.inj hfm; rfl
          rw [hmm]; exact hm2
        · have hdd : x.1.dd = d := by
            split at hfm
            · obtain rfl := Option.some.inj hfm; rfl
            · split at hfm
              · simp at hfm
              · obtain rfl := Option.some.inj hfm; rfl
          rw [hdd]; exact hd1
        · have hdd : x.1.dd = d := by
            split at hfm
            · obtain rfl := Option.some.inj hfm; rfl
            · split at hfm
              · simp at hfm
              · obtain rfl := Option.some.inj hfm; rfl
          rw [hdd]; exact hd2
        · rw [hyy]
          exact ccYearCands_bounds hyc
    · simp at h

/-! ## Claims -/

/-- C9: Year normalization.  In the credit-card parser a 2-digit year
(value below 100) resolves to that year plus 2000, a 4-digit year is used
as-is, and a missing year resolves to the caller-supplied default; in the
checking parser the year group comes from the second date pair's year, else
the first pair's, else the default, and every accepted date token has month
01–12, day 01–31, with checking-parser years always of the form `20xx`
(used as-is) and credit-card years at most 9999. -/
theorem claim9_year_normalization :
    (∀ (dy y : Nat), y < 100 → ccResolveYear (some y) dy = 2000 + y) ∧
    (∀ (dy y : Nat), 1000 ≤ y → ccResolveYear (some y) dy = y) ∧
    (∀ dy : Nat, ccResolveYear none dy = dy) ∧
    (∀ (dy y2 : Nat) (o1 : Option Nat), chaseResolveYear (some y2) o1 dy = y2) ∧
    (∀ (dy y1 : Nat), chaseResolveYear none (some y1) dy = y1) ∧
    (∀ dy : Nat, chaseResolveYear none none dy = dy) ∧
    (∀ (cs : List Char) (x : DateTok × List Char), x ∈ chaseDateCands cs →
      1 ≤ x.1.mm ∧ x.1.mm ≤ 12 ∧ 1 ≤ x.1.dd ∧ x.1.dd ≤ 31 ∧
        ∀ y, x.1.yy = some y → 2000 ≤ y ∧ y ≤ 2099) ∧
    (∀ (cs : List Char) (x : DateTok × List Char), x ∈ ccDateCandsAt cs →
      1 ≤ x.1.mm ∧ x.1.mm ≤ 12 ∧ 1 ≤ x.1.dd ∧ x.1.dd ≤ 31 ∧
        ∀ y, x.1.yy = some y → y ≤ 9999) := by
  refine ⟨?_, ?_, ?_, ?_, ?_, ?_, ?_, ?_⟩
  · intro dy y h
    show (if y < 100 then 2000 + y else y) = 2000 + y
    rw [if_pos h]
  · intro dy y h
    show (if y < 100 then 2000 + y else y) = y
    rw [if_neg (by omega)]
  · intro dy; rfl
  · intro dy y2 o1; rfl
  · intro dy y1; rfl
  · intro dy; rfl
  · intro cs x h; exact chaseDateCands_bounds h
  · intro cs x h; exact ccDateCandsAt_bounds h

theorem claim9_witness :
    ((24 : Nat) < 100 ∧ ccResolveYear (some 24) 2023 = 2047 - 23) ∧
    ((1000 : Nat) ≤ 2024 ∧ ccResolveYear (some 2024) 1999 = 2024) ∧
    ccResolveYear none 2023 = 2023 ∧
    chaseResolveYear (some 2025) (some 2024) 2023 = 2025 ∧
    chaseResolveYear none (some 2024) 2023 = 2024 ∧
    chaseResolveYear none none 2023 = 2023 ∧
    ((⟨⟨7, 15, some 2024⟩, []⟩ : DateTok × List Char) ∈
        chaseDateCands "07/15/2024".toList ∧
      1 ≤ (7 : Nat) ∧ (7 : Nat) ≤ 12 ∧ 1 ≤ (15 : Nat) ∧ (15 : Nat) ≤ 31 ∧
      2000 ≤ (2024 : Nat) ∧ (2024 : Nat) ≤ 2099) ∧
    ((⟨⟨7, 15, some 24⟩, []⟩ : DateTok × List Char) ∈ ccDateCandsAt "07/15/24".toList ∧
      (24 : Nat) ≤ 9999) := by
  have h := claim9_year_normalization
  refine ⟨⟨by decide, ?_⟩, ⟨by decide, h.2.1 1999 2024 (by decide)⟩,
    h.2.2.1 2023, h.2.2.2.1 2023 2025 (some 2024), h.2.2.2.2.1 2023 2024,
    h.2.2.2.2.2.1 2023, ⟨?_, ?_⟩, ⟨?_, ?_⟩⟩
  · rw [h.1 2023 24 (by decide)]
  · decide
  · have hb := h.2.2.2.2.2.2.1 "07/15/2024".toList ⟨⟨7, 15, some 2024⟩, []⟩ (by decide)
    exact ⟨hb.1, hb.2.1, hb.2.2.1, hb.2.2.2.1, (hb.2.2.2.2 2024 rfl).1,
      (hb.2.2.2.2 2024 rfl).2⟩
  · decide
  · exact (h.2.2.2.2.2.2.2 "07/15/24".toList ⟨⟨7, 15, some 24⟩, []⟩ (by decide)).2.2.2.2
      24 rfl

/-- C10: In the credit-card parser a line whose date token fails calendar
validation starts a block with `current_date = None`; subsequent non-date,
non-summary lines are dropped while no date is pending, and a dateless
block flushes to no transaction, so those lines appear nowhere in the
parse result; concretely, the `02/30` statement yields only the valid
`03/01` transaction. -/
theorem claim10_invalid_date_block :
    (∀ (dy : Nat) (st : CCState) (raw : String) (t : DateTok),
      isSummaryLine (pyRstrip raw) = false →
      ccDateSearch (pyRstrip raw) = some t →
      dateValid (ccResolveYear t.yy dy) t.mm t.dd = false →
      ccStep dy st raw = { ccFlush st with curDate := none, curLines := [pyRstrip raw] }) ∧
    (∀ (dy : Nat) (st : CCState) (raw : String),
      st.curDate = none → isSummaryLine (pyRstrip raw) = false →
      ccDateSearch (pyRstrip raw) = none → ccStep dy st raw = st) ∧
    (∀ st : CCState, st.curDate = none → (ccFlush st).txs = st.txs) ∧
    parseCreditCardTransactionsMultiline ccBadDateLines 2024 =
      ([⟨⟨2024, 3, 1⟩, 10, "03/01 GOOD 10.00"⟩], some 10, some 10) := by
  refine ⟨?_, ?_, ?_, by with_unfolding_all rfl⟩
  · intro dy st raw t hsum hdate hvalid
    unfold ccStep
    dsimp only
    rw [hsum, hdate]
    simp only [Bool.false_eq_true, if_false, hvalid]
  · intro dy st raw hcur hsum hdate
    unfold ccStep
    dsimp only
    rw [hsum, hdate, hcur]
    simp
  · intro st hcur
    unfold ccFlush
    rw [hcur]

theorem claim10_witness :
    ccStep 2024 ccStBlock "02/30 BAD CHARGE 5.00" =
      { ccFlush ccStBlock with curDate := none, curLines := ["02/30 BAD CHARGE 5.00"] } ∧
    ccStep 2024 ccStDateless "EXTRA DESC 7.00" = ccStDateless ∧
    (ccFlush ccStDateless).txs = ccStDateless.txs := by
  refine ⟨claim10_invalid_date_block.1 2024 ccStBlock "02/30 BAD CHARGE 5.00" ⟨2, 30, none⟩
      (by decide) (by decide) (by decide),
    claim10_invalid_date_block.2.1 2024 ccStDateless "EXTRA DESC 7.00" rfl (by decide)
      (by decide),
    claim10_invalid_date_block.2.2.1 ccStDateless rfl⟩

/-- C6: A line matching the strict header grammar with two date pairs,
seen inside an active section with no pending header, finalizes any open
record and opens a new one dated from the second pair (month/day from it,
year from its year, else the first pair's, else the default) with the
parsed amount and the active section; concretely,
`"07/15 08/15 ACH DEPOSIT WIDGETS INC 10,000.00"` inside Deposits yields
exactly one transaction `2025-08-15 / 10000.00 / Deposit`. -/
theorem claim6_strict_two_dates :
    (∀ (dy : Nat) (st : ChaseState) (raw : String) (s : Sect) (g : StrictG)
      (t2 : DateTok) (a : ℚ),
      st.sect = some s → st.pending = none →
      isDailyBalLine (pyStrip raw) = false → isDepositsLine (pyStrip raw) = false →
      isWithdrawalsLine (pyStrip raw) = false → isFeesLine (pyStrip raw) = false →
      isTotalLine (pyStrip raw) = false →
      txHeaderStrict (pyStrip raw) = some g → g.d2 = some t2 →
      dateValid (chaseResolveYear t2.yy g.d1.yy dy) t2.mm t2.dd = true →
      normAmount g.amt = some a →
      (chaseStep dy st raw).current =
        some ⟨⟨chaseResolveYear t2.yy g.d1.yy dy, t2.mm, t2.dd⟩, a, s, [g.desc]⟩ ∧
      (chaseStep dy st raw).transactions =
        st.transactions ++ (match st.current with | some c => [c.toTx] | none => []) ∧
      (chaseStep dy st raw).pending = none ∧
      (chaseStep dy st raw).unparsed = st.unparsed) ∧
    parseChaseTransactionsFull demoStrictLines 2025 =
      ([⟨⟨2025, 8, 15⟩, 10000, Sect.deposit, "ACH DEPOSIT WIDGETS INC"⟩],
        ⟨0, 0, 0⟩, ⟨[], [], []⟩) := by
  refine ⟨?_, by with_unfolding_all rfl⟩
  intro dy st raw s g t2 a hs hp h1 h2 h3 h4 h5 hstrict hd2 hdate hamt
  have hred : chaseStep dy st raw = stepStrict dy st s g (pyStrip raw) := by
    unfold chaseStep
    dsimp only
    rw [h1, h2, h3, h4, hs]
    simp only [Bool.false_eq_true, if_false]
    rw [h5, hp, hstrict]
    simp only [Bool.false_eq_true, if_false]
  have hdd : chaseHeaderDate g.d1 g.d2 dy =
      ⟨chaseResolveYear t2.yy g.d1.yy dy, t2.mm, t2.dd⟩ := by
    unfold chaseHeaderDate
    rw [hd2]
  rw [hred]
  unfold stepStrict
  rw [hdd]
  dsimp only
  refine ⟨?_, ?_, ?_, ?_⟩ <;>
    simp [hdate, hamt, hp, finalizeCurrent_current, finalizeCurrent_transactions,
      finalizeCurrent_pending, finalizeCurrent_unparsed]

theorem claim6_witness :
    (chaseStep 2025 stDepositOpen "07/15 08/15 ACH DEPOSIT WIDGETS INC 10,000.00").current =
      some ⟨⟨2025, 8, 15⟩, 10000, Sect.deposit, ["ACH DEPOSIT WIDGETS INC"]⟩ ∧
    (chaseStep 2025 stDepositOpen "07/15 08/15 ACH DEPOSIT WIDGETS INC 10,000.00").transactions =
      [demoOpenRec.toTx] := by
  have h := claim6_strict_two_dates.1 2025 stDepositOpen
    "07/15 08/15 ACH DEPOSIT WIDGETS INC 10,000.00" Sect.deposit
    ⟨⟨7, 15, none⟩, some ⟨8, 15, none⟩, "ACH DEPOSIT WIDGETS INC", "10,000.00"⟩
    ⟨8, 15, none⟩ 10000 rfl rfl (by decide) (by decide) (by decide) (by decide)
    (by decide) (by with_unfolding_all rfl) rfl (by decide) (by with_unfolding_all rfl)
  exact ⟨h.1, h.2.1⟩

/-- C7: Two-line headers: a header line with date token(s) and no trailing
amount (inside an active section, nothing pending) finalizes any open
record and enters the pending state with that date and description; while
pending, a line whose clipped text carries a parseable amount closes the
pending header into an open record dated from the header with the first
amount of that line and both texts as the description, while a line with
no parseable amount is appended to the pending description and the state
stays pending; concretely `"07/16 PAYROLL FUNDING"` then `"  500.00"`
under Withdrawals yields one 500.00 withdrawal whose description holds
both lines. -/
theorem claim7_pending_header :
    (∀ (dy : Nat) (st : ChaseState) (raw : String) (s : Sect) (g : NoAmtG),
      st.sect = some s → st.pending = none →
      isDailyBalLine (pyStrip raw) = false → isDepositsLine (pyStrip raw) = false →
      isWithdrawalsLine (pyStrip raw) = false → isFeesLine (pyStrip raw) = false →
      isTotalLine (pyStrip raw) = false →
      txHeaderStrict (pyStrip raw) = none → txHeaderNoAmt (pyStrip raw) = some g →
      dateValid (chaseHeaderDate g.d1 g.d2 dy).y (chaseHeaderDate g.d1 g.d2 dy).m
        (chaseHeaderDate g.d1 g.d2 dy).d = true →
      (chaseStep dy st raw).pending = some ⟨chaseHeaderDate g.d1 g.d2 dy, g.desc, s⟩ ∧
      (chaseStep dy st raw).current = none ∧
      (chaseStep dy st raw).transactions =
        st.transactions ++ (match st.current with | some c => [c.toTx] | none => []) ∧
      (chaseStep dy st raw).unparsed = st.unparsed) ∧
    (∀ (dy : Nat) (st : ChaseState) (raw : String) (s : Sect) (p : Pending) (m : String)
      (a : ℚ),
      st.sect = some s → st.pending = some p →
      isDailyBalLine (pyStrip raw) = false → isDepositsLine (pyStrip raw) = false →
      isWithdrawalsLine (pyStrip raw) = false → isFeesLine (pyStrip raw) = false →
      isTotalLine (pyStrip raw) = false →
      amountSearch (stripAfterFirstAmount (pyStrip raw)) = some m → normAmount m = some a →
      (chaseStep dy st raw).current =
        some ⟨p.date, a, p.sect, [p.desc, stripAfterFirstAmount (pyStrip raw)]⟩ ∧
      (chaseStep dy st raw).pending = none ∧
      (chaseStep dy st raw).transactions = st.transactions ∧
      (chaseStep dy st raw).unparsed = st.unparsed) ∧
    (∀ (dy : Nat) (st : ChaseState) (raw : String) (s : Sect) (p : Pending),
      st.sect = some s → st.pending = some p →
      isDailyBalLine (pyStrip raw) = false → isDepositsLine (pyStrip raw) = false →
      isWithdrawalsLine (pyStrip raw) = false → isFeesLine (pyStrip raw) = false →
      isTotalLine (pyStrip raw) = false →
      (amountSearch (stripAfterFirstAmount (pyStrip raw))).bind normAmount = none →
      (chaseStep dy st raw).pending =
        some { p with desc := p.desc ++ " " ++ stripAfterFirstAmount (pyStrip raw) } ∧
      (chaseStep dy st raw).current = st.current ∧
      (chaseStep dy st raw).transactions = st.transactions ∧
      (chaseStep dy st raw).unparsed = st.unparsed) ∧
    parseChaseTransactionsFull demoPendingLines 2024 =
      ([⟨⟨2024, 7, 16⟩, 500, Sect.withdrawal, "PAYROLL FUNDING\n500.00"⟩],
        ⟨0, 0, 0⟩, ⟨[], [], []⟩) := by
  refine ⟨?_, ?_, ?_, by with_unfolding_all rfl⟩
  · intro dy st raw s g hs hp h1 h2 h3 h4 h5 hstrict hnoamt hdate
    have hred : chaseStep dy st raw = stepNoAmt dy st s g (pyStrip raw) := by
      unfold chaseStep
      dsimp only
      rw [h1, h2, h3, h4, hs]
      simp only [Bool.false_eq_true, if_false]
      rw [h5, hp, hstrict, hnoamt]
      simp only [Bool.false_eq_true, if_false]
    rw [hred]
    unfold stepNoAmt
    dsimp only
    refine ⟨?_, ?_, ?_, ?_⟩ <;>
      simp [hdate, finalizeCurrent_current, finalizeCurrent_transactions,
        finalizeCurrent_pending, finalizeCurrent_unparsed]
  · intro dy st raw s p m a hs hp h1 h2 h3 h4 h5 hsearch hnorm
    have hred : chaseStep dy st raw = stepPending st p (pyStrip raw) := by
      unfold chaseStep
      dsimp only
      rw [h1, h2, h3, h4, hs]
      simp only [Bool.false_eq_true, if_false]
      rw [h5, hp]
      simp only [Bool.false_eq_true, if_false]
    rw [hred]
    unfold stepPending
    dsimp only
    rw [hsearch]
    dsimp only
    rw [hnorm]
    exact ⟨rfl, rfl, rfl, rfl⟩
  · intro dy st raw s p hs hp h1 h2 h3 h4 h5 hnone
    have hred : chaseStep dy st raw = stepPending st p (pyStrip raw) := by
      unfold chaseStep
      dsimp only
      rw [h1, h2, h3, h4, hs]
      simp only [Bool.false_eq_true, if_false]
      rw [h5, hp]
      simp only [Bool.false_eq_true, if_false]
    rw [hred]
    unfold stepPending
    dsimp only
    cases hsearch : amountSearch (stripAfterFirstAmount (pyStrip raw)) with
    | none => exact ⟨rfl, rfl, rfl, rfl⟩
    | some m =>
      rw [hsearch] at hnone
      simp only [Option.bind] at hnone
      dsimp only
      rw [hnone]
      exact ⟨rfl, rfl, rfl, rfl⟩

theorem claim7_witness :
    ((chaseStep 2024 stDepositOpen "07/16 PAYROLL FUNDING").pending =
      some ⟨⟨2024, 7, 16⟩, "PAYROLL FUNDING", Sect.deposit⟩ ∧
     (chaseStep 2024 stDepositOpen "07/16 PAYROLL FUNDING").transactions =
      [demoOpenRec.toTx]) ∧
    (chaseStep 2024 stPending "  500.00").current =
      some ⟨⟨2024, 7, 16⟩, 500, Sect.withdrawal, ["PAYROLL FUNDING", "500.00"]⟩ ∧
    (chaseStep 2024 stPending "no amount continuation").pending =
      some ⟨⟨2024, 7, 16⟩, "PAYROLL FUNDING no amount continuation", Sect.withdrawal⟩ := by
  have ha := claim7_pending_header.1 2024 stDepositOpen "07/16 PAYROLL FUNDING" Sect.deposit
    ⟨⟨7, 16, none⟩, none, "PAYROLL FUNDING"⟩ rfl rfl (by decide) (by decide) (by decide)
    (by decide) (by decide) (by decide) (by decide) (by decide)
  have hb := claim7_pending_header.2.1 2024 stPending "  500.00" Sect.withdrawal demoPending
    "500.00" 500 rfl rfl (by decide) (by decide) (by decide) (by decide) (by decide)
    (by decide) (by with_unfolding_all rfl)
  have hc := claim7_pending_header.2.2.1 2024 stPending "no amount continuation"
    Sect.withdrawal demoPending rfl rfl (by decide) (by decide) (by decide) (by decide)
    (by decide) (by with_unfolding_all rfl)
  exact ⟨⟨ha.1, ha.2.2.1⟩, hb.1, hc.1⟩

/-- C4: Unparsed-line retention.  Inside an active section, a stripped
line that is no marker/TOTAL line, with no pending header, that matches
none of the three header grammars and has no open record, is appended to
that section's unparsed list; unparsed lists only ever grow during the
pass and through finalization, and a pending header left at end of input
contributes its accumulated description to its section's unparsed list. -/
theorem claim4_unparsed_retention :
    (∀ (dy : Nat) (st : ChaseState) (raw : String) (s : Sect),
      st.sect = some s →
      isDailyBalLine (pyStrip raw) = false → isDepositsLine (pyStrip raw) = false →
      isWithdrawalsLine (pyStrip raw) = false → isFeesLine (pyStrip raw) = false →
      isTotalLine (pyStrip raw) = false →
      st.pending = none →
      txHeaderStrict (pyStrip raw) = none → txHeaderNoAmt (pyStrip raw) = none →
      txHeaderLoose (pyStrip raw) = false → st.current = none →
      (chaseStep dy st raw).unparsed.get s = st.unparsed.get s ++ [pyStrip raw]) ∧
    (∀ (dy : Nat) (lines : List String) (st : ChaseState) (s : Sect),
      st.unparsed.get s <+: (chaseRun dy st lines).unparsed.get s) ∧
    (∀ (st : ChaseState) (p : Pending), st.pending = some p →
      (chaseFinish st).unparsed.get p.sect = st.unparsed.get p.sect ++ [p.desc]) ∧
    (∀ (st : ChaseState) (s : Sect),
      st.unparsed.get s <+: (chaseFinish st).unparsed.get s) := by
  refine ⟨?_, chaseRun_unparsed_mono, ?_, chaseFinish_unparsed_mono⟩
  · intro dy st raw s hs h1 h2 h3 h4 h5 hp hstrict hnoamt hloose hcur
    have hred : chaseStep dy st raw = pushUnparsed st s (pyStrip raw) := by
      unfold chaseStep
      dsimp only
      rw [h1, h2, h3, h4, hs]
      simp only [Bool.false_eq_true, if_false]
      rw [h5, hp, hstrict, hnoamt, hloose, hcur]
      simp only [Bool.false_eq_true, if_false]
    rw [hred]
    simp [pushUnparsed, Unparsed.get_push]
  · intro st p hpend
    unfold chaseFinish
    dsimp only
    rw [finalizeCurrent_pending, hpend]
    dsimp only
    simp [pushUnparsed, finalizeCurrent_unparsed, Unparsed.get_push]

theorem claim4_witness :
    (chaseStep 2024 stDeposit "&&& UNCLASSIFIABLE &&&").unparsed.get Sect.deposit =
      ["&&& UNCLASSIFIABLE &&&"] ∧
    (chaseFinish stPendingEnd).unparsed.get Sect.withdrawal = ["PAYROLL FUNDING"] ∧
    chaseInit.unparsed.get Sect.fee <+:
      (chaseRun 2024 chaseInit demoPendingLines).unparsed.get Sect.fee := by
  have h1 := claim4_unparsed_retention.1 2024 stDeposit "&&& UNCLASSIFIABLE &&&"
    Sect.deposit rfl (by decide) (by decide) (by decide) (by decide) (by decide) rfl
    (by decide) (by decide) (by decide) rfl
  have h3 := claim4_unparsed_retention.2.2.1 stPendingEnd
    ⟨⟨2024, 7, 16⟩, "PAYROLL FUNDING", Sect.withdrawal⟩ (by with_unfolding_all rfl)
  exact ⟨by rw [h1]; with_unfolding_all rfl, by rw [h3]; with_unfolding_all rfl,
    claim4_unparsed_retention.2.1 2024 demoPendingLines chaseInit Sect.fee⟩

/-- C5 counterexample: the claim says a printed section total is absent
from the result when no `TOTAL` line appears, but the totals mapping of
the parse result always carries a value: a deposits section with no
`TOTAL` line at all produces exactly the same parse result as one closed
by a printed `TOTAL 0.00`, with the deposit total present as `0.0`. -/
theorem claim5_counterexample :
    noTotalLines.all (fun ln => !(isTotalLine (pyStrip ln))) = true ∧
    parseChaseTransactionsFull noTotalLines 2024 =
      parseChaseTransactionsFull totalZeroLines 2024 ∧
    (parseChaseTransactionsFull noTotalLines 2024).2.1.get Sect.deposit = 0 := by
  exact ⟨by decide, by with_unfolding_all rfl, by with_unfolding_all rfl⟩

/-- C5 (amended): the totals mapping always carries a non-negative value
for every section, initialized to `0.0`; it changes only at a `TOTAL`
line of an active section whose trailing amount parses, and is then set
to that amount's absolute value; with no `TOTAL` line a section's value
stays `0.0`, indistinguishable from a printed zero total. -/
theorem claim5_amended :
    (∀ (lines : List String) (dy : Nat) (s : Sect),
      0 ≤ (parseChaseTransactionsFull lines dy).2.1.get s) ∧
    (∀ (dy : Nat) (st : ChaseState) (raw : String),
      (chaseStep dy st raw).pdfTotals = st.pdfTotals ∨
      ∃ s g v, st.sect = some s ∧ isTotalLine (pyStrip raw) = true ∧
        amountTrailing (pyStrip raw) = some g ∧ normAmount g = some v ∧
        (chaseStep dy st raw).pdfTotals = st.pdfTotals.set s |v|) ∧
    (∀ (dy : Nat) (st : ChaseState) (raw : String) (s : Sect) (g : String) (v : ℚ),
      st.sect = some s →
      isDailyBalLine (pyStrip raw) = false → isDepositsLine (pyStrip raw) = false →
      isWithdrawalsLine (pyStrip raw) = false → isFeesLine (pyStrip raw) = false →
      isTotalLine (pyStrip raw) = true →
      amountTrailing (pyStrip raw) = some g → normAmount g = some v →
      (chaseStep dy st raw).pdfTotals = st.pdfTotals.set s |v|) := by
  refine ⟨?_, chaseStep_totals_cases, ?_⟩
  · intro lines dy s
    unfold parseChaseTransactionsFull
    dsimp only
    rw [chaseFinish_pdfTotals]
    refine chaseRun_totals_nonneg dy lines chaseInit ?_ s
    intro s'
    cases s' <;> norm_num [chaseInit, Totals.get]
  · intro dy st raw s g v hs h1 h2 h3 h4 h5 hg hv
    have hred : chaseStep dy st raw = stepTotal st s (pyStrip raw) := by
      unfold chaseStep
      dsimp only
      rw [h1, h2, h3, h4, hs]
      simp only [Bool.false_eq_true, if_false]
      rw [if_pos h5]
    rw [hred]
    unfold stepTotal
    rw [hg]
    dsimp only
    rw [hv]
    simp [finalizeCurrent_pdfTotals]

theorem claim5_witness :
    (chaseStep 2024 stDeposit "TOTAL 15,000.00").pdfTotals =
      stDeposit.pdfTotals.set Sect.deposit 15000 ∧
    0 ≤ (parseChaseTransactionsFull noTotalLines 2024).2.1.get Sect.fee := by
  have h := claim5_amended.2.2 2024 stDeposit "TOTAL 15,000.00" Sect.deposit "15,000.00"
    15000 rfl (by decide) (by decide) (by decide) (by decide) (by decide) (by decide)
    (by with_unfolding_all rfl)
  exact ⟨by rw [h]; with_unfolding_all rfl, claim5_amended.1 noTotalLines 2024 Sect.fee⟩

/-- C1 counterexample: the claim's "passes exactly when the totals differ
by at most one cent" fails at large magnitudes, because `math.isclose`
keeps its default relative tolerance `1e-9` alongside `abs_tol=0.01`: a
parsed deposit statement whose computed total exceeds the printed
`TOTAL 20,000,000.00` by two cents reconciles with no mismatch. -/
theorem claim1_counterexample :
    (parseChaseTransactionsFull bigLines 2024).2.1.get Sect.deposit = 20000000 ∧
    (computeSectionSums (orderedTx (parseChaseTransactionsFull bigLines 2024).1)).get
      Sect.deposit = 20000000 + 1 / 50 ∧
    checkingMismatches (parseChaseTransactionsFull bigLines 2024).2.1
      (computeSectionSums (orderedTx (parseChaseTransactionsFull bigLines 2024).1)) = [] ∧
    checkingValidation false (parseChaseTransactionsFull bigLines 2024).2.1
      (computeSectionSums (orderedTx (parseChaseTransactionsFull bigLines 2024).1)) =
      Outcome.pass ∧
    ¬ |(20000000 : ℚ) - (20000000 + 1 / 50)| ≤ 1 / 100 := by
  exact ⟨by with_unfolding_all rfl, by with_unfolding_all rfl, by with_unfolding_all rfl,
    by with_unfolding_all rfl, by norm_num [abs_le]⟩

/-- C1 (amended): for every parsed checking statement and section, the
computed total is the rounded sum of the absolute amounts of that
section's transactions, and the section reconciles exactly when the
printed and computed totals differ by at most
`max(1e-9 * max(|printed|, |computed|), 0.01)` (`math.isclose` with
`abs_tol = 0.01` and the default relative tolerance); overall validation
passes exactly when no section mismatches.  At the example's magnitude,
deposits summing exactly to the printed `TOTAL 15,000.00` pass and a
`0.02` perturbation yields a mismatch naming the deposit section. -/
theorem claim1_amended :
    (∀ (lines : List String) (dy : Nat) (s : Sect),
      (computeSectionSums (orderedTx (parseChaseTransactionsFull lines dy).1)).get s =
        roundCents ((((parseChaseTransactionsFull lines dy).1.filter
          (fun t => decide (t.sect = s))).map (fun t => |t.amount|)).sum)) ∧
    (∀ (tot sums : Totals) (s : Sect),
      s ∈ checkingMismatches tot sums ↔
        ¬ |tot.get s - sums.get s| ≤
          max (relTol * max |tot.get s| |sums.get s|) absTolCent) ∧
    (∀ (tot sums : Totals) (force : Bool),
      checkingValidation force tot sums = Outcome.pass ↔
        checkingMismatches tot sums = []) ∧
    checkingValidation false (parseChaseTransactionsFull okLines 2024).2.1
      (computeSectionSums (orderedTx (parseChaseTransactionsFull okLines 2024).1)) =
      Outcome.pass ∧
    checkingMismatches (parseChaseTransactionsFull perturbedLines 2024).2.1
      (computeSectionSums (orderedTx (parseChaseTransactionsFull perturbedLines 2024).1)) =
      [Sect.deposit] := by
  refine ⟨?_, ?_, ?_, by with_unfolding_all rfl, by with_unfolding_all rfl⟩
  · intro lines dy s
    rw [computeSectionSums_get]
    congr 1
    exact List.Perm.sum_eq
      (List.Perm.map _ (List.Perm.filter _ (orderedTx_perm _)))
  · intro tot sums s
    unfold checkingMismatches isclose
    rw [List.mem_filter]
    simp only [Bool.not_eq_true', decide_eq_false_iff_not]
    constructor
    · exact fun h => h.2
    · intro h
      exact ⟨by cases s <;> simp, h⟩
  · intro tot sums force
    by_cases hm : checkingMismatches tot sums = [] <;> cases force <;>
      simp [checkingValidation, hm]

/-- C2 counterexample: for credit cards the same relative tolerance makes
the "equals within one cent" iff fail at large magnitudes: a parsed
statement with previous and new balances of `$20,000,000.00` and a single
`$0.02` charge validates as a pass although the balances are two cents
apart. -/
theorem claim2_counterexample :
    (parseCreditCardTransactionsMultiline ccBigLines 2024).2.2 = some 20000000 ∧
    (parseCreditCardTransactionsMultiline ccBigLines 2024).2.1 = some 20000000 ∧
    ccSumAll (parseCreditCardTransactionsMultiline ccBigLines 2024).1 = 1 / 50 ∧
    ccValidation "0652" false (parseCreditCardTransactionsMultiline ccBigLines 2024).2.1
      (parseCreditCardTransactionsMultiline ccBigLines 2024).2.2
      (ccSumAll (parseCreditCardTransactionsMultiline ccBigLines 2024).1) = Outcome.pass ∧
    ¬ |((20000000 : ℚ) + 1 / 50) - 20000000| ≤ 1 / 100 := by
  exact ⟨by with_unfolding_all rfl, by with_unfolding_all rfl, by with_unfolding_all rfl,
    by with_unfolding_all rfl, by norm_num [abs_le]⟩

/-- C2 (amended): with both balances present the check passes exactly
when `round(previous + Σ, 2)` and `round(new, 2)` differ by at most
`max(1e-9 * max(|lhs|, |rhs|), 0.01)`; a missing previous or new balance
never passes silently but produces a reportable outcome; at the example's
magnitude, `previous = 120.00` with transactions summing to `45.30`
passes only against `new = 165.30` and raises a mismatch message carrying
both operand values otherwise. -/
theorem claim2_amended :
    (∀ (digits : String) (p n sumAll : ℚ),
      ccValidation digits false (some n) (some p) sumAll = Outcome.pass ↔
        |roundCents (p + sumAll) - roundCents n| ≤
          max (relTol * max |roundCents (p + sumAll)| |roundCents n|) absTolCent) ∧
    (∀ (digits : String) (force : Bool) (prevB : Option ℚ) (sumAll : ℚ),
      ccValidation digits force none prevB sumAll ≠ Outcome.pass) ∧
    (∀ (digits : String) (force : Bool) (newB : Option ℚ) (sumAll : ℚ),
      ccValidation digits force newB none sumAll ≠ Outcome.pass) ∧
    (∀ (digits : String) (p sumAll lhs n : ℚ),
      containsSub (fmt2 lhs) (ccMismatchMsg digits p sumAll lhs n) ∧
      containsSub (fmt2 n) (ccMismatchMsg digits p sumAll lhs n)) ∧
    ccValidation "0652" false (some (1653 / 10)) (some 120) (453 / 10) = Outcome.pass ∧
    ccValidation "0652" false (some (4133 / 25)) (some 120) (453 / 10) =
      Outcome.raised (ccMismatchMsg "0652" 120 (453 / 10) (1653 / 10) (4133 / 25)) := by
  refine ⟨?_, ?_, ?_, ?_, by with_unfolding_all rfl, by with_unfolding_all rfl⟩
  · intro digits p n sumAll
    have hiff : isclose (roundCents (p + sumAll)) (roundCents n) = true ↔
        |roundCents (p + sumAll) - roundCents n| ≤
          max (relTol * max |roundCents (p + sumAll)| |roundCents n|) absTolCent := by
      unfold isclose
      exact decide_eq_true_iff
    rw [← hiff]
    by_cases hc : isclose (roundCents (p + sumAll)) (roundCents n) = true <;>
      simp [ccValidation, hc]
  · intro digits force prevB sumAll
    cases prevB <;> cases force <;> simp [ccValidation]
  · intro digits force newB sumAll
    cases newB <;> cases force <;> simp [ccValidation]
  · intro digits p sumAll lhs n
    constructor
    · exact ⟨("Validation failed for *" ++ digits ++ "*: Previous ($" ++ fmt2 p ++
        ") + Σ($" ++ fmt2 sumAll ++ ") = $").data, (" != New ($" ++ fmt2 n ++ ")").data,
        by simp [ccMismatchMsg, String.data_append, List.append_assoc]⟩
    · exact ⟨("Validation failed for *" ++ digits ++ "*: Previous ($" ++ fmt2 p ++
        ") + Σ($" ++ fmt2 sumAll ++ ") = $" ++ fmt2 lhs ++ " != New ($").data,
        (")" : String).data,
        by simp [ccMismatchMsg, String.data_append, List.append_assoc]⟩

theorem claim2_witness :
    ccValidation "0652" true none (some (120 : ℚ)) 0 ≠ Outcome.pass ∧
    ccValidation "0652" false (some (55 : ℚ)) none 0 ≠ Outcome.pass :=
  ⟨claim2_amended.2.1 "0652" true (some 120) 0,
   claim2_amended.2.2.1 "0652" false (some 55) 0⟩

/-- C3 counterexample: the escalated checking failure is a bare fixed
sentence: on the perturbed deposit statement the raised message is
`"Section totals mismatch between PDF and parsed data. Use --force to
proceed."`, which contains no digit at all — in particular neither the
printed total `15000.00` nor the computed `15000.02` — and the code
prints no section samples or unparsed lines with it. -/
theorem claim3_counterexample :
    checkingValidation false (parseChaseTransactionsFull perturbedLines 2024).2.1
      (computeSectionSums (orderedTx (parseChaseTransactionsFull perturbedLines 2024).1)) =
      Outcome.raised chaseMismatchMsg ∧
    (parseChaseTransactionsFull perturbedLines 2024).2.1.get Sect.deposit = 15000 ∧
    (computeSectionSums (orderedTx (parseChaseTransactionsFull perturbedLines 2024).1)).get
      Sect.deposit = 15000 + 1 / 50 ∧
    chaseMismatchMsg.data.all (fun c => !(isDigitChar c)) = true ∧
    ¬ containsSub (fmt2 15000) chaseMismatchMsg ∧
    ¬ containsSub (fmt2 (15000 + 1 / 50)) chaseMismatchMsg := by
  exact ⟨by with_unfolding_all rfl, by with_unfolding_all rfl, by with_unfolding_all rfl,
    by decide, of_decide_eq_false (by with_unfolding_all rfl),
    of_decide_eq_false (by with_unfolding_all rfl)⟩

/-- C3 (amended): a reconciliation mismatch or missing balance is
escalated to a raised error exactly when `--force` is not set; the
checking-section failure message is the fixed sentence without the
disagreement values, while the credit-card mismatch message carries the
previous balance, the transaction sum, their total and the new balance,
and the missing-balance message names the missing side. -/
theorem claim3_amended :
    (∀ (force : Bool) (tot sums : Totals),
      checkingValidation force tot sums = Outcome.raised chaseMismatchMsg ↔
        (checkingMismatches tot sums ≠ [] ∧ force = false)) ∧
    (∀ (force : Bool) (tot sums : Totals) (m : String),
      checkingValidation force tot sums = Outcome.raised m → m = chaseMismatchMsg) ∧
    (∀ (digits : String) (force : Bool) (newB prevB : Option ℚ) (sumAll : ℚ),
      (∃ m, ccValidation digits force newB prevB sumAll = Outcome.raised m) ↔
        (force = false ∧ (newB = none ∨ prevB = none ∨ ∃ p n, prevB = some p ∧
          newB = some n ∧ isclose (roundCents (p + sumAll)) (roundCents n) = false))) ∧
    (∀ (digits : String) (p sumAll lhs n : ℚ),
      containsSub (fmt2 p) (ccMismatchMsg digits p sumAll lhs n) ∧
      containsSub (fmt2 sumAll) (ccMismatchMsg digits p sumAll lhs n)) ∧
    (∀ digits : String, containsSub "Previous" (ccMissingMsg true false digits) ∧
      containsSub "New" (ccMissingMsg false true digits)) := by
  refine ⟨?_, ?_, ?_, ?_, ?_⟩
  · intro force tot sums
    by_cases hm : checkingMismatches tot sums = [] <;> cases force <;>
      simp [checkingValidation, hm]
  · intro force tot sums m h
    by_cases hm : checkingMismatches tot sums = [] <;> cases force <;>
      simp [checkingValidation, hm] at h <;> simp [h]
  · intro digits force newB prevB sumAll
    cases prevB with
    | none => cases force <;> simp [ccValidation]
    | some p =>
      cases newB with
      | none => cases force <;> simp [ccValidation]
      | some n =>
        cases force <;>
          by_cases hc : isclose (roundCents (p + sumAll)) (roundCents n) = true <;>
          simp [ccValidation, hc]
  · intro digits p sumAll lhs n
    constructor
    · exact ⟨("Validation failed for *" ++ digits ++ "*: Previous ($").data,
        (") + Σ($" ++ fmt2 sumAll ++ ") = $" ++ fmt2 lhs ++ " != New ($" ++ fmt2 n ++
          ")").data,
        by simp [ccMismatchMsg, String.data_append, List.append_assoc]⟩
    · exact ⟨("Validation failed for *" ++ digits ++
        "*: Previous ($" ++ fmt2 p ++ ") + Σ($").data,
        (") = $" ++ fmt2 lhs ++ " != New ($" ++ fmt2 n ++ ")").data,
        by simp [ccMismatchMsg, String.data_append, List.append_assoc]⟩
  · intro digits
    have h1 : ccMissingMsg true false digits =
        "Missing " ++ "Previous" ++ " balance(s) for *" ++ digits ++ "*; cannot validate." := by
      with_unfolding_all rfl
    have h2 : ccMissingMsg false true digits =
        "Missing " ++ "New" ++ " balance(s) for *" ++ digits ++ "*; cannot validate." := by
      with_unfolding_all rfl
    constructor
    · rw [h1]
      exact ⟨("Missing ").data, (" balance(s) for *" ++ digits ++ "*; cannot validate.").data,
        by simp [String.data_append, List.append_assoc]⟩
    · rw [h2]
      exact ⟨("Missing ").data, (" balance(s) for *" ++ digits ++ "*; cannot validate.").data,
        by simp [String.data_append, List.append_assoc]⟩

theorem claim3_witness : chaseMismatchMsg = chaseMismatchMsg :=
  claim3_amended.2.1 false (parseChaseTransactionsFull perturbedLines 2024).2.1
    (computeSectionSums (orderedTx (parseChaseTransactionsFull perturbedLines 2024).1))
    chaseMismatchMsg (by with_unfolding_all rfl)

/-- C8 counterexample: the block description is not always the
whitespace-normalized concatenation of the block's lines: `clean_text`
also deletes `Page N of M` markers, so a block whose text contains
`"Page 1 of 2"` parses to a description with the marker removed. -/
theorem claim8_counterexample :
    (parseCreditCardTransactionsMultiline ccPageLines 2024).1 =
      [⟨⟨2024, 7, 15⟩, 617 / 50, "07/15 AMAZON PURCHASE 12.34"⟩] ∧
    wsNormalizedConcat ["07/15 AMAZON Page 1 of 2 PURCHASE", "12.34"] =
      "07/15 AMAZON Page 1 of 2 PURCHASE 12.34" ∧
    ("07/15 AMAZON PURCHASE 12.34" : String) ≠
      "07/15 AMAZON Page 1 of 2 PURCHASE 12.34" := by
  exact ⟨by with_unfolding_all rfl, by decide, by decide⟩

/-- C8 (amended): a flushed block with a date yields one transaction
whose description is the whitespace-normalized concatenation of the
block's lines after page-marker removal (`clean_text`) and whose amount
is the first parsed amount token found scanning the block's last line,
then its first line, then the remaining lines in reverse order (each
line contributing only its first amount token); a block with no
parseable amount is dropped. -/
theorem claim8_amended :
    (∀ (st : CCState) (d : YMD) (l : String) (ls : List String),
      st.curDate = some d → st.curLines = l :: ls →
      (ccFlush st).txs = st.txs ++
        (match ccExtractAmount (l :: ls) with
         | some v => [⟨d, v, cleanText (String.intercalate " " (l :: ls))⟩]
         | none => [])) ∧
    (∀ (l : String) (ls : List String),
      ccExtractAmount (l :: ls) =
        firstAmount ((l :: ls).getLastD l :: l :: ls.dropLast.reverse)) ∧
    parseCreditCardTransactionsMultiline
      ["NEW BALANCE 55.00", "07/01 ONLY DATE NO AMOUNT LINE", "wrapped text"] 2024 =
      ([], some 55, none) := by
  refine ⟨?_, ccExtractAmount_claimOrder, by with_unfolding_all rfl⟩
  intro st d l ls hd hl
  unfold ccFlush
  rw [hd, hl]
  dsimp only
  cases h : ccExtractAmount (l :: ls) <;> simp [h]

theorem claim8_witness :
    (ccFlush ccStBlock).txs =
      [⟨⟨2024, 7, 8⟩, 3, "07/08 OLD CHARGE 3.00"⟩] ∧
    ccExtractAmount ["1.00 a", "2.00 b", "3.00 c"] =
      firstAmount ["3.00 c", "1.00 a", "2.00 b"] := by
  have h := claim8_amended.1 ccStBlock ⟨2024, 7, 8⟩ "07/08 OLD CHARGE 3.00" [] rfl rfl
  exact ⟨by rw [h]; with_unfolding_all rfl,
    claim8_amended.2.1 "1.00 a" ["2.00 b", "3.00 c"]⟩

end BookKeeping
